import Mathlib

/-!
Verification of the clinical-trial-matching workforce example and of the
task-orchestration engine it invokes.

`ClinicalTrial` embeds the example script
`examples/workforce/clinical_trial_matching.py` (the only source file of
the repository): model construction, agent construction, workforce
registration and root-task construction.

`Engine` models the orchestration engine (Task Store, Worker Registry,
Coordinator, Execution Engine, Telemetry, Shutdown Controller) from the
design document, since the engine's own code is not part of the
repository's files; each such definition carries a `Modelled from the
spec` comment.
-/

namespace ClinicalTrial

/-- The subset of `camel.types.ModelPlatformType` referenced by the example
(`DEFAULT` is the declared default of `run_clinical_trial_matching`,
`VLLM` is what `ModelFactory.create` is called with). -/
inductive ModelPlatformType
  | default
  | vllm
  | openai
deriving DecidableEq

/-- The `camel.types.ModelType` parameter type of `run_clinical_trial_matching`
(`DEFAULT` plus arbitrary named members). -/
inductive ModelType
  | default
  | named (name : String)
deriving DecidableEq

/-- The model produced by `ModelFactory.create`: platform, model type (the
call passes the raw string "google/medgemma-1.5-4b-it"), url, api key and
the `model_config_dict` temperature entry. -/
structure ModelSpec where
  platform : ModelPlatformType
  modelType : String
  url : String
  apiKey : String
  temperature : Rat
deriving DecidableEq

/-- The `ModelFactory.create(...)` call in `run_clinical_trial_matching`
(lines 441-447): every field is hard-coded; the `model_platform` and
`model_type` parameters of the enclosing function are not used. -/
def createModel (model_platform : ModelPlatformType) (model_type : ModelType) :
    ModelSpec :=
  { platform := ModelPlatformType.vllm
    modelType := "google/medgemma-1.5-4b-it"
    url := "http://localhost:8000/v1"
    apiKey := "vllm"
    temperature := 0 }

/-- A `camel.agents.ChatAgent` as constructed by the example: a system
message (role name and content), a model and an optional tool list. -/
structure ChatAgent where
  roleName : String
  sysContent : String
  model : ModelSpec
  tools : Option (List String)
deriving DecidableEq

/-- System-message content of the EHR Analyst (textwrap.dedent of the
literal in `create_ehr_analyst`). -/
def ehrAnalystPrompt : String :=
  "\nYou are an expert Clinical Data Analyst specializing in Electronic\nHealth Records (EHR) analysis for clinical trial screening.\n\nYour responsibilities:\n1. Extract and organize ALL clinically relevant information from\n   patient EHR data\n2. Identify key data points that may be relevant to eligibility\n3. Flag any missing information that might be needed for evaluation\n4. Present data in a clear, readable text format with sections\n\nIMPORTANT: Always respond in plain text with clear headings and\nbullet points. Do NOT use JSON format.\n\nOrganize your output into these sections:\n## Demographics\n## Diagnosis and Disease Characteristics\n## Treatment History\n## Laboratory Values\n## Functional Status\n## Cardiac/Other Organ Function\n## Relevant Medical History\n\nBe thorough and precise. Missing a relevant detail could affect\ntrial eligibility determination.\n"

/-- System-message content of the Inclusion Criteria Evaluator. -/
def inclusionEvaluatorPrompt : String :=
  "\nYou are a Clinical Trial Eligibility Specialist focused on\nevaluating INCLUSION criteria.\n\nFor EACH inclusion criterion, you must provide:\n\n1. CRITERION ID & TEXT: State the exact criterion\n\n2. RELEVANT EHR DATA: Quote or reference the specific data from\n   the patient's EHR that pertains to this criterion\n\n3. EVALUATION:\n   - PASS: Patient clearly meets the criterion\n   - FAIL: Patient clearly does not meet the criterion\n   - INDETERMINATE: Insufficient data to determine\n\n4. CONFIDENCE LEVEL: High / Medium / Low\n\n5. REASONING: Explain your evaluation with specific reference to\n   the criterion requirements and patient data\n\nFormat each criterion evaluation clearly and consistently.\nBe rigorous - a patient must meet ALL inclusion criteria to be\npotentially eligible.\n\nIf data is missing for a criterion, mark it as INDETERMINATE and\nspecify what additional data would be needed.\n"

/-- System-message content of the Exclusion Criteria Evaluator. -/
def exclusionEvaluatorPrompt : String :=
  "\nYou are a Clinical Trial Eligibility Specialist focused on\nevaluating EXCLUSION criteria.\n\nIMPORTANT: For exclusion criteria, a \"PASS\" means the patient\ndoes NOT have the exclusionary condition (they can proceed).\nA \"FAIL\" means the patient HAS the exclusionary condition and\nwould be excluded from the trial.\n\nFor EACH exclusion criterion, you must provide:\n\n1. CRITERION ID & TEXT: State the exact criterion\n\n2. RELEVANT EHR DATA: Quote or reference the specific data from\n   the patient's EHR that pertains to this criterion\n\n3. EVALUATION:\n   - PASS: Patient does NOT have this exclusionary condition\n   - FAIL: Patient HAS this exclusionary condition (excluded)\n   - INDETERMINATE: Insufficient data to determine\n\n4. CONFIDENCE LEVEL: High / Medium / Low\n\n5. REASONING: Explain your evaluation with specific reference to\n   the criterion requirements and patient data\n\nBe especially vigilant about exclusion criteria - missing an\nexclusionary condition could put patient safety at risk.\n\nIf any exclusion criterion is met (FAIL), the patient cannot\nparticipate regardless of inclusion criteria status.\n"

/-- System-message content of the Medical Verifier. -/
def medicalVerifierPrompt : String :=
  "\nYou are a Senior Medical Monitor responsible for quality assurance\nin clinical trial eligibility screening.\n\nYour role is to VERIFY the accuracy of the criteria evaluations:\n\n1. CROSS-CHECK each evaluation against the original EHR data and\n   trial criteria\n\n2. IDENTIFY any errors or inconsistencies in the evaluations:\n   - Incorrect interpretation of criteria\n   - Misreading of EHR values\n   - Calculation errors (e.g., creatinine clearance)\n   - Logical inconsistencies\n\n3. FLAG any evaluations that need reconsideration\n\n4. CONFIRM evaluations that are accurate\n\n5. HIGHLIGHT any safety concerns\n\nFor each criterion, provide:\n- VERIFICATION STATUS: Confirmed / Needs Review / Error Found\n- If error found or needs review: Explain the issue\n- CORRECTED EVALUATION if applicable\n\nBe thorough and critical. Patient safety depends on accurate\neligibility determination.\n"

/-- The 60-character banner row used by the Final Adjudicator report
template. -/
def reportBanner : String := String.mk (List.replicate 60 '=')

/-- System-message content of the Final Adjudicator. -/
def finalAdjudicatorPrompt : String :=
  "\nYou are the Principal Investigator's designee responsible for \nmaking the FINAL eligibility determination for clinical trial \nenrollment.\n\nBased on all evaluations and verifications, produce a comprehensive\nCLINICAL TRIAL ELIGIBILITY REPORT with the following structure:\n\n" ++ reportBanner ++ "\nCLINICAL TRIAL ELIGIBILITY REPORT\n" ++ reportBanner ++ "\n\nPATIENT ID: [ID]\nTRIAL: [Trial Name/ID]\nEVALUATION DATE: [Date]\n\n------------------------------------------------------------\nEXECUTIVE SUMMARY\n------------------------------------------------------------\n[2-3 sentence summary of eligibility status]\n\nFINAL ELIGIBILITY DETERMINATION: ELIGIBLE / NOT ELIGIBLE /\n                                  PENDING ADDITIONAL DATA\n\n------------------------------------------------------------\nINCLUSION CRITERIA SUMMARY\n------------------------------------------------------------\n[Table or list showing each criterion, status, and confidence]\n\nCriteria Met: X/Y\nCriteria Not Met: List any failed criteria\nCriteria Indeterminate: List any indeterminate criteria\n\n------------------------------------------------------------\nEXCLUSION CRITERIA SUMMARY\n------------------------------------------------------------\n[Table or list showing each criterion, status, and confidence]\n\nExclusionary Conditions Found: List any (these preclude enrollment)\nCriteria Clear: X/Y\nCriteria Indeterminate: List any\n\n------------------------------------------------------------\nKEY FINDINGS & CONCERNS\n------------------------------------------------------------\n[Highlight any borderline cases, concerns, or special notes]\n\n------------------------------------------------------------\nREQUIRED FOLLOW-UP (if applicable)\n------------------------------------------------------------\n[List any additional tests, data, or evaluations needed]\n\n------------------------------------------------------------\nFINAL RECOMMENDATION\n------------------------------------------------------------\n[Detailed recommendation with reasoning]\n\nAdjudicator: [Role]\n\n" ++ reportBanner ++ "\n"

/-- `create_ehr_analyst`: ChatAgent with the EHR Analyst system message,
the given model and `tools=None`. -/
def create_ehr_analyst (model : ModelSpec) : ChatAgent :=
  { roleName := "EHR Analyst", sysContent := ehrAnalystPrompt
    model := model, tools := none }

/-- `create_inclusion_evaluator`. -/
def create_inclusion_evaluator (model : ModelSpec) : ChatAgent :=
  { roleName := "Inclusion Criteria Evaluator"
    sysContent := inclusionEvaluatorPrompt, model := model, tools := none }

/-- `create_exclusion_evaluator`. -/
def create_exclusion_evaluator (model : ModelSpec) : ChatAgent :=
  { roleName := "Exclusion Criteria Evaluator"
    sysContent := exclusionEvaluatorPrompt, model := model, tools := none }

/-- `create_medical_verifier`. -/
def create_medical_verifier (model : ModelSpec) : ChatAgent :=
  { roleName := "Medical Verifier", sysContent := medicalVerifierPrompt
    model := model, tools := none }

/-- `create_final_adjudicator`. -/
def create_final_adjudicator (model : ModelSpec) : ChatAgent :=
  { roleName := "Final Adjudicator", sysContent := finalAdjudicatorPrompt
    model := model, tools := none }

/-- A `camel.societies.workforce.Workforce` as the example configures it:
description, graceful shutdown timeout, default model, and the registered
single-agent workers (description paired with agent, in registration
order). -/
structure Workforce where
  description : String
  graceful_shutdown_timeout : Rat
  default_model : ModelSpec
  workers : List (String × ChatAgent)
deriving DecidableEq

/-- `Workforce.add_single_agent_worker`: appends the worker and returns the
workforce (the Python method returns `self` for chaining). -/
def Workforce.add_single_agent_worker (wf : Workforce) (description : String)
    (worker : ChatAgent) : Workforce :=
  { wf with workers := wf.workers ++ [(description, worker)] }

/-- A `camel.tasks.Task` as constructed by the example: content,
`additional_info` and id. -/
structure RootTask where
  content : String
  additional_info : List (String × String)
  id : String
deriving DecidableEq

/-- The main task content string of `run_clinical_trial_matching`
(textwrap.dedent of the literal at lines 503-529). -/
def screeningTaskContent : String :=
  "\nPerform a comprehensive clinical trial eligibility screening.\n\nIMPORTANT: All outputs should be in plain text or markdown format,\nNOT JSON. Use clear headings, bullet points, and sections.\n\nWORKFLOW:\n1. First, have the EHR Analyst extract and organize all relevant\n   patient information from the EHR data. Present as a clear text\n   summary with labeled sections (Demographics, Diagnosis, Labs, etc.)\n\n2. Then, have the Inclusion Criteria Evaluator assess EACH inclusion\n   criterion (I1-I11) against the patient data with detailed\n   pass/fail/indeterminate status and reasoning.\n\n3. Simultaneously or after, have the Exclusion Criteria Evaluator\n   assess EACH exclusion criterion (E1-E12) with detailed evaluation.\n\n4. Have the Medical Verifier review ALL evaluations for accuracy,\n   flag any errors, and confirm correct assessments.\n\n5. Finally, have the Final Adjudicator compile everything into a\n   comprehensive eligibility report with the final determination.\n\nThe output should be a complete, readable eligibility report in\nplain text that can be reviewed by the clinical trial team.\n"

/-- The construction portion of `run_clinical_trial_matching` (lines
440-538): create the model, the five specialized agents, the workforce
with its five registered workers, and the root task. Returns the
configured workforce and the task handed to `workforce.process_task`. -/
def run_clinical_trial_matching (patient_ehr : String) (trial_criteria : String)
    (model_platform : ModelPlatformType) (model_type : ModelType) :
    Workforce × RootTask :=
  let model := createModel model_platform model_type
  let ehr_analyst := create_ehr_analyst model
  let inclusion_evaluator := create_inclusion_evaluator model
  let exclusion_evaluator := create_exclusion_evaluator model
  let medical_verifier := create_medical_verifier model
  let final_adjudicator := create_final_adjudicator model
  let workforce : Workforce :=
    { description := "Clinical Trial Eligibility Screening Team"
      graceful_shutdown_timeout := 60
      default_model := model
      workers := [] }
  let workforce :=
    ((((workforce.add_single_agent_worker
      "EHR Analyst - Extracts and organizes patient clinical data from Electronic Health Records for trial screening"
      ehr_analyst).add_single_agent_worker
      "Inclusion Criteria Evaluator - Evaluates whether the patient meets each inclusion criterion with detailed reasoning"
      inclusion_evaluator).add_single_agent_worker
      "Exclusion Criteria Evaluator - Evaluates whether the patient has any exclusionary conditions with detailed reasoning"
      exclusion_evaluator).add_single_agent_worker
      "Medical Verifier - Cross-checks and verifies the accuracy of all criteria evaluations for quality assurance"
      medical_verifier).add_single_agent_worker
      "Final Adjudicator - Produces the final structured eligibility report with determination and recommendations"
      final_adjudicator
  let task : RootTask :=
    { content := screeningTaskContent
      additional_info :=
        [("patient_ehr", patient_ehr), ("trial_criteria", trial_criteria)]
      id := "clinical_trial_screening" }
  (workforce, task)

end ClinicalTrial

namespace Engine

/-- Modelled from the spec: the engine's task state machine (section 4.4);
the engine code is not among the repository's files. -/
inductive Status
  | created
  | opened
  | running
  | succeeded
  | failed
  | blocked
  | cancelled
deriving DecidableEq

/-- Modelled from the spec: a Task of the Task Store (section 3): identifier,
parent reference, the root of its tree, content, structured context,
dependency identifiers, ordered child identifiers, status, assigned
worker, attempt count. -/
structure TaskNode where
  id : Nat
  parent : Option Nat
  root : Nat
  content : String
  context : List (String × String)
  deps : List Nat
  children : List Nat
  status : Status
  worker : Option Nat
  attempts : Nat
deriving DecidableEq

/-- Modelled from the spec: a Worker of the Worker Registry (section 3):
identifier and current availability. -/
structure WorkerNode where
  id : Nat
  busy : Bool
deriving DecidableEq

/-- Modelled from the spec: the Telemetry Event kinds (section 3). -/
inductive EventKind
  | created
  | assigned
  | started
  | succeeded
  | failed
  | retried
  | blocked
  | cancelled
deriving DecidableEq

/-- Modelled from the spec: a Telemetry Event record (sections 3 and 6):
timestamp, task id, parent id, worker id, event kind, and the dependency
list as the payload of creation events. -/
structure Event where
  time : Nat
  taskId : Nat
  parentId : Option Nat
  workerId : Option Nat
  kind : EventKind
  depsPayload : List Nat
deriving DecidableEq

/-- Modelled from the spec: the engine's shared state: the Task Store, the
Worker Registry, the append-only Telemetry log, a logical clock issuing
event timestamps, the Shutdown Controller's requested deadline, and the
configured maximum attempt count of the retry policy. -/
structure EngineState where
  tasks : List TaskNode
  workers : List WorkerNode
  log : List Event
  clock : Nat
  shutdownDeadline : Option Nat
  maxAttempts : Nat
deriving DecidableEq

/-- Task lookup by identifier. -/
def findTask (s : EngineState) (i : Nat) : Option TaskNode :=
  s.tasks.find? (fun t => t.id == i)

/-- Worker lookup by identifier. -/
def findWorker (s : EngineState) (i : Nat) : Option WorkerNode :=
  s.workers.find? (fun w => w.id == i)

/-- Point update of the task with the given identifier. -/
def updateTask (s : EngineState) (i : Nat) (f : TaskNode → TaskNode) :
    EngineState :=
  { s with tasks := s.tasks.map (fun t => if t.id == i then f t else t) }

/-- Set the availability flag of the worker with the given identifier. -/
def setWorkerBusy (s : EngineState) (i : Nat) (b : Bool) : EngineState :=
  { s with workers := s.workers.map (fun w => if w.id == i then { w with busy := b } else w) }

/-- Modelled from the spec: the Worker Registry error taxonomy
(sections 4.1 and 7). -/
inductive RegistryError
  | duplicateWorker
  | workerUnavailable
deriving DecidableEq

/-- Modelled from the spec: `register(worker)` adds a worker, failing with
DuplicateWorker if the identifier already exists (section 4.1). -/
def register (s : EngineState) (i : Nat) : Except RegistryError EngineState :=
  if s.workers.any (fun w => w.id == i) then Except.error RegistryError.duplicateWorker
  else Except.ok { s with workers := s.workers ++ [{ id := i, busy := false }] }

/-- Modelled from the spec: `acquire(workerID)` atomically marks a worker
busy, failing with WorkerUnavailable if already busy or unknown
(section 4.1). -/
def acquire (s : EngineState) (i : Nat) : Except RegistryError EngineState :=
  match findWorker s i with
  | none => Except.error RegistryError.workerUnavailable
  | some w =>
    if w.busy then Except.error RegistryError.workerUnavailable
    else Except.ok (setWorkerBusy s i true)

/-- Modelled from the spec: `release(workerID)` marks the worker idle
(section 4.1). -/
def release (s : EngineState) (i : Nat) : EngineState :=
  setWorkerBusy s i false

/-- Modelled from the spec: the Task Store error taxonomy (section 7). -/
inductive StoreError
  | invalidDependency
deriving DecidableEq

/-- The root of the tree a task created under `parent` belongs to: the
parent's root, or the new identifier itself for a parentless root task. -/
def taskRoot (s : EngineState) (parent : Option Nat) (newId : Nat) : Nat :=
  match parent with
  | none => newId
  | some p =>
    match findTask s p with
    | some t => t.root
    | none => newId

/-- A dependency identifier is valid when it names an existing task of the
given tree. -/
def sameTree (s : EngineState) (root d : Nat) : Bool :=
  match findTask s d with
  | some t => t.root == root
  | none => false

/-- Append the new child to its parent's ordered child list. -/
def addChild (parent : Option Nat) (childId : Nat) (t : TaskNode) : TaskNode :=
  if parent == some t.id then { t with children := t.children ++ [childId] }
  else t

/-- The task record `createTask` inserts: state OPEN, no worker, first
attempt. -/
def newTask (i : Nat) (parent : Option Nat) (root : Nat) (content : String)
    (context : List (String × String)) (deps : List Nat) : TaskNode :=
  { id := i, parent := parent, root := root, content := content, context := context, deps := deps, children := [], status := Status.opened, worker := none, attempts := 1 }

/-- The CREATED telemetry event of a task insertion, carrying the
dependency list as payload. -/
def createdEvent (time i : Nat) (parent : Option Nat) (deps : List Nat) : Event :=
  { time := time, taskId := i, parentId := parent, workerId := none, kind := EventKind.created, depsPayload := deps }

/-- A lifecycle-transition telemetry event. -/
def transitionEvent (time i : Nat) (parent : Option Nat) (worker : Option Nat)
    (kind : EventKind) : Event :=
  { time := time, taskId := i, parentId := parent, workerId := worker, kind := kind, depsPayload := [] }

/-- Modelled from the spec: `createTask(parent, content, context,
dependencies)` validates that every dependency id already exists and
belongs to the same tree, then inserts a task in state OPEN (appending a
CREATED telemetry event and registering the child with its parent); fails
with InvalidDependency otherwise (section 4.2). -/
def createTask (s : EngineState) (i : Nat) (parent : Option Nat)
    (content : String) (context : List (String × String)) (deps : List Nat) :
    Except StoreError EngineState :=
  let root := taskRoot s parent i
  if deps.all (fun d => sameTree s root d) then
    Except.ok { s with tasks := s.tasks.map (addChild parent i) ++ [newTask i parent root content context deps], log := s.log ++ [createdEvent s.clock i parent deps], clock := s.clock + 1 }
  else Except.error StoreError.invalidDependency

/-- Modelled from the spec: readiness of dependencies — every declared
dependency has reached SUCCEEDED (sections 4.2 and 4.4). -/
def depsSucceeded (s : EngineState) (t : TaskNode) : Bool :=
  t.deps.all (fun d =>
    match findTask s d with
    | some td => td.status == Status.succeeded
    | none => false)

/-- Modelled from the spec: dispatch of a ready task (section 4.4):
OPEN to RUNNING requires an acquired worker and all dependencies
SUCCEEDED; during an active shutdown no new OPEN to RUNNING transition is
admitted (section 5). Emits a STARTED event stamped with the clock. -/
def dispatch (s : EngineState) (ti wi : Nat) : EngineState :=
  match findTask s ti with
  | none => s
  | some t =>
    if t.status == Status.opened && depsSucceeded s t && s.shutdownDeadline == none then
      match acquire s wi with
      | Except.error _ => s
      | Except.ok s1 =>
        let s2 := updateTask s1 ti (fun u => { u with status := Status.running, worker := some wi })
        { s2 with log := s2.log ++ [transitionEvent s.clock ti t.parent (some wi) EventKind.started], clock := s.clock + 1 }
    else s

/-- Release the worker a finishing task holds, if any. -/
def releaseHeld (s : EngineState) (t : TaskNode) : EngineState :=
  match t.worker with
  | some wi => release s wi
  | none => s

/-- Modelled from the spec: worker success (section 4.4): RUNNING to
SUCCEEDED, release of the worker, a SUCCEEDED event. -/
def finishOk (s : EngineState) (ti : Nat) : EngineState :=
  match findTask s ti with
  | none => s
  | some t =>
    if t.status == Status.running then
      let s2 := updateTask (releaseHeld s t) ti (fun u => { u with status := Status.succeeded, worker := none })
      { s2 with log := s2.log ++ [transitionEvent s.clock ti t.parent t.worker EventKind.succeeded], clock := s.clock + 1 }
    else s

/-- Modelled from the spec: worker failure under the retry policy
(section 4.4): within the attempt budget the task re-enters OPEN with its
attempt count incremented and a RETRIED event; once the budget is
exhausted the task transitions to FAILED with a FAILED event. The worker
is released either way. -/
def finishFail (s : EngineState) (ti : Nat) : EngineState :=
  match findTask s ti with
  | none => s
  | some t =>
    if t.status == Status.running then
      if t.attempts < s.maxAttempts then
        let s2 := updateTask (releaseHeld s t) ti (fun u => { u with status := Status.opened, worker := none, attempts := u.attempts + 1 })
        { s2 with log := s2.log ++ [transitionEvent s.clock ti t.parent t.worker EventKind.retried], clock := s.clock + 1 }
      else
        let s2 := updateTask (releaseHeld s t) ti (fun u => { u with status := Status.failed, worker := none })
        { s2 with log := s2.log ++ [transitionEvent s.clock ti t.parent t.worker EventKind.failed], clock := s.clock + 1 }
    else s

/-- Modelled from the spec: `requestShutdown(deadline)` records the drain
deadline; a second request is a no-op, making shutdown idempotent
(section 5). -/
def requestShutdown (s : EngineState) (deadline : Nat) : EngineState :=
  match s.shutdownDeadline with
  | some _ => s
  | none => { s with shutdownDeadline := some deadline }

/-- A task the shutdown drain must force: still RUNNING or OPEN. -/
def forced (t : TaskNode) : Bool :=
  t.status == Status.running || t.status == Status.opened

/-- The task update a drain forces: CANCELLED with its worker unbound. -/
def cancelT (t : TaskNode) : TaskNode :=
  { t with status := Status.cancelled, worker := none }

/-- Modelled from the spec: forcing one task to CANCELLED during the drain:
its worker is released, its status becomes CANCELLED, and a CANCELLED
telemetry event is emitted (section 5, steps 3 and 4). -/
def cancelOne (s : EngineState) (i : Nat) : EngineState :=
  match findTask s i with
  | none => s
  | some t =>
    let s2 := updateTask (releaseHeld s t) i cancelT
    { s2 with log := s2.log ++ [transitionEvent s.clock i t.parent t.worker EventKind.cancelled], clock := s.clock + 1 }

/-- Modelled from the spec: the deadline-expiry drain (section 5): once the
requested deadline has expired, every remaining RUNNING and OPEN task is
forced to CANCELLED, their workers are released and a CANCELLED event is
emitted for every forced task. -/
def drain (s : EngineState) : EngineState :=
  match s.shutdownDeadline with
  | none => s
  | some d =>
    if d ≤ s.clock then ((s.tasks.filter forced).map (fun t => t.id)).foldl cancelOne s
    else s

/-- Modelled from the spec: the engine's observable steps — task creation,
worker registration, dispatch of a ready task, worker completion (success
or failure), a shutdown request, and the deadline drain. -/
inductive Action
  | createT (i : Nat) (parent : Option Nat) (content : String) (context : List (String × String)) (deps : List Nat)
  | registerW (i : Nat)
  | dispatchT (taskId workerId : Nat)
  | finishOkT (taskId : Nat)
  | finishFailT (taskId : Nat)
  | requestShutdownA (deadline : Nat)
  | drainA
deriving DecidableEq

/-- Modelled from the spec: one scheduling-loop step. A step whose guard
fails leaves the state unchanged; the engine assigns fresh task
identifiers, so creation of an already-present identifier is not
admitted. -/
def exec (s : EngineState) (a : Action) : EngineState :=
  match a with
  | Action.createT i parent content context deps =>
    if s.tasks.any (fun t => t.id == i) then s
    else
      match createTask s i parent content context deps with
      | Except.ok s' => s'
      | Except.error _ => s
  | Action.registerW i =>
    match register s i with
    | Except.ok s' => s'
    | Except.error _ => s
  | Action.dispatchT ti wi => dispatch s ti wi
  | Action.finishOkT ti => finishOk s ti
  | Action.finishFailT ti => finishFail s ti
  | Action.requestShutdownA d => requestShutdown s d
  | Action.drainA => drain s

/-- The empty initial state with a configured retry budget. -/
def init (maxAttempts : Nat) : EngineState :=
  { tasks := [], workers := [], log := [], clock := 0, shutdownDeadline := none, maxAttempts := maxAttempts }

/-- Run a sequence of engine steps. -/
def runActions (s : EngineState) (as : List Action) : EngineState :=
  as.foldl exec s

/-- Modelled from the spec: a subtask specification produced by `decompose`:
instruction text plus the positions (within the plan) of the subtasks it
depends on (section 4.3). -/
structure SubtaskSpec where
  content : String
  deps : List Nat
deriving DecidableEq

/-- A linear chain of subtasks: step `k` depends on step `k - 1`. -/
def chainFrom : Nat → List String → List SubtaskSpec
  | _, [] => []
  | k, c :: rest => { content := c, deps := if k = 0 then [] else [k - 1] } :: chainFrom (k + 1) rest

/-- Modelled from the spec: the candidate execution plans the Coordinator
derives from a task's instruction text (sentences become subtasks): a
sequential chain ranked first, and — when at least two workers are
registered — a fully parallel variant (sections 2 and 4.3). -/
def candidatePlans (s : EngineState) (t : TaskNode) : List (List SubtaskSpec) :=
  let steps := (t.content.splitOn ". ").filter (fun p => p ≠ "")
  [chainFrom 0 steps] ++ (if 2 ≤ s.workers.length then [steps.map (fun c => { content := c, deps := [] })] else [])

/-- Modelled from the spec: plan selection by the planning model: at
sampling temperature zero the ranked-first plan is taken (greedy
decoding); at a positive temperature the sampling seed picks among the
candidates. -/
def samplePlan (temperature : Rat) (seed : Nat) (plans : List (List SubtaskSpec)) : List SubtaskSpec :=
  if temperature = 0 then plans.headD [] else plans.getD (seed % plans.length) []

/-- Modelled from the spec: `decompose(task)` — produces the child subtasks
and their dependency structure for a task by querying the planning model
(section 4.3); the sampling seed stands for the randomness of one
invocation. -/
def decompose (model : ClinicalTrial.ModelSpec) (seed : Nat) (s : EngineState) (t : TaskNode) : List SubtaskSpec :=
  samplePlan model.temperature seed (candidatePlans s t)

/-- Modelled from the spec: `dumpLogs` serializes the full Telemetry Event
log as an ordered sequence of records (section 6). -/
def dumpLogs (s : EngineState) : List Event :=
  s.log

/-- A node of the task tree as reconstructed from a dumped log. -/
structure RebuiltTask where
  id : Nat
  parent : Option Nat
  deps : List Nat
  children : List Nat
  status : Status
deriving DecidableEq

/-- The structural view of a live task: identifiers, edges and status. -/
def projT (t : TaskNode) : RebuiltTask :=
  { id := t.id, parent := t.parent, deps := t.deps, children := t.children, status := t.status }

/-- Replay helper: set the status of the rebuilt task with the given id. -/
def setSt (i : Nat) (st : Status) (acc : List RebuiltTask) : List RebuiltTask :=
  acc.map (fun t => if t.id == i then { t with status := st } else t)

/-- Modelled from the spec: replay of one dumped record while rebuilding the
task tree: CREATED inserts a node (and registers it with its parent); the
transition kinds replay the state machine (section 6). -/
def applyRecord (acc : List RebuiltTask) (r : Event) : List RebuiltTask :=
  match r.kind with
  | EventKind.created => acc.map (fun t => if r.parentId == some t.id then { t with children := t.children ++ [r.taskId] } else t) ++ [{ id := r.taskId, parent := r.parentId, deps := r.depsPayload, children := [], status := Status.opened }]
  | EventKind.assigned => acc
  | EventKind.started => setSt r.taskId Status.running acc
  | EventKind.succeeded => setSt r.taskId Status.succeeded acc
  | EventKind.failed => setSt r.taskId Status.failed acc
  | EventKind.retried => setSt r.taskId Status.opened acc
  | EventKind.blocked => acc
  | EventKind.cancelled => setSt r.taskId Status.cancelled acc

/-- Modelled from the spec: reconstruction of the task tree from a dumped
record sequence, replaying the records in order (section 6). -/
def reconstruct (rs : List Event) : List RebuiltTask :=
  rs.foldl applyRecord []

/-- The retry scenario of the spec (section 8, Scenario C): one worker, one
subtask, two failures within a retry budget of three, then success. -/
def scenarioC : List Action :=
  [Action.registerW 0, Action.createT 1 none "screen" [] [], Action.dispatchT 1 0, Action.finishFailT 1, Action.dispatchT 1 0, Action.finishFailT 1, Action.dispatchT 1 0, Action.finishOkT 1]

/-- The engine's reachable-state invariant, maintained by every scheduling
step: task and worker identifiers are pairwise distinct; only RUNNING
tasks hold a worker, and each RUNNING task holds an existing busy worker;
no two running tasks share a worker; every busy worker is bound to a
running task; event timestamps precede the clock; every SUCCEEDED task
has a SUCCEEDED event; every STARTED event names an existing task whose
dependencies all have earlier SUCCEEDED events; and replaying the
telemetry log rebuilds the live task tree. -/
structure Inv (s : EngineState) : Prop where
  idsT : s.tasks.Pairwise (fun a b => a.id ≠ b.id)
  idsW : s.workers.Pairwise (fun a b => a.id ≠ b.id)
  nrw : ∀ t ∈ s.tasks, t.status ≠ Status.running → t.worker = none
  rwx : ∀ t ∈ s.tasks, t.status = Status.running → ∃ w ∈ s.workers, t.worker = some w.id ∧ w.busy = true
  otw : s.tasks.Pairwise (fun a b => ¬(a.status = Status.running ∧ b.status = Status.running ∧ a.worker = b.worker ∧ a.worker ≠ none))
  wb : ∀ w ∈ s.workers, w.busy = true → ∃ t ∈ s.tasks, t.status = Status.running ∧ t.worker = some w.id
  times : ∀ e ∈ s.log, e.time < s.clock
  se : ∀ t ∈ s.tasks, t.status = Status.succeeded → ∃ e ∈ s.log, e.taskId = t.id ∧ e.kind = EventKind.succeeded
  sx : ∀ e ∈ s.log, e.kind = EventKind.started → ∃ t ∈ s.tasks, t.id = e.taskId
  sd : ∀ e ∈ s.log, e.kind = EventKind.started → ∀ t ∈ s.tasks, t.id = e.taskId → ∀ d ∈ t.deps, ∃ e2 ∈ s.log, e2.taskId = d ∧ e2.kind = EventKind.succeeded ∧ e2.time < e.time
  rep : reconstruct s.log = s.tasks.map projT


end Engine

namespace Engine

/-! Projection lemmas: which state components each primitive touches. -/

@[simp] theorem setWorkerBusy_tasks (s : EngineState) (i : Nat) (b : Bool) :
    (setWorkerBusy s i b).tasks = s.tasks := rfl

@[simp] theorem setWorkerBusy_log (s : EngineState) (i : Nat) (b : Bool) :
    (setWorkerBusy s i b).log = s.log := rfl

@[simp] theorem setWorkerBusy_clock (s : EngineState) (i : Nat) (b : Bool) :
    (setWorkerBusy s i b).clock = s.clock := rfl

@[simp] theorem setWorkerBusy_shutdownDeadline (s : EngineState) (i : Nat) (b : Bool) :
    (setWorkerBusy s i b).shutdownDeadline = s.shutdownDeadline := rfl

@[simp] theorem setWorkerBusy_maxAttempts (s : EngineState) (i : Nat) (b : Bool) :
    (setWorkerBusy s i b).maxAttempts = s.maxAttempts := rfl

@[simp] theorem setWorkerBusy_workers (s : EngineState) (i : Nat) (b : Bool) :
    (setWorkerBusy s i b).workers = s.workers.map (fun w => if w.id == i then { w with busy := b } else w) := rfl

@[simp] theorem updateTask_tasks (s : EngineState) (i : Nat) (f : TaskNode → TaskNode) :
    (updateTask s i f).tasks = s.tasks.map (fun t => if t.id == i then f t else t) := rfl

@[simp] theorem updateTask_workers (s : EngineState) (i : Nat) (f : TaskNode → TaskNode) :
    (updateTask s i f).workers = s.workers := rfl

@[simp] theorem updateTask_log (s : EngineState) (i : Nat) (f : TaskNode → TaskNode) :
    (updateTask s i f).log = s.log := rfl

@[simp] theorem updateTask_clock (s : EngineState) (i : Nat) (f : TaskNode → TaskNode) :
    (updateTask s i f).clock = s.clock := rfl

@[simp] theorem updateTask_shutdownDeadline (s : EngineState) (i : Nat) (f : TaskNode → TaskNode) :
    (updateTask s i f).shutdownDeadline = s.shutdownDeadline := rfl

@[simp] theorem updateTask_maxAttempts (s : EngineState) (i : Nat) (f : TaskNode → TaskNode) :
    (updateTask s i f).maxAttempts = s.maxAttempts := rfl

@[simp] theorem release_tasks (s : EngineState) (i : Nat) : (release s i).tasks = s.tasks := rfl

@[simp] theorem release_log (s : EngineState) (i : Nat) : (release s i).log = s.log := rfl

@[simp] theorem release_clock (s : EngineState) (i : Nat) : (release s i).clock = s.clock := rfl

@[simp] theorem release_shutdownDeadline (s : EngineState) (i : Nat) :
    (release s i).shutdownDeadline = s.shutdownDeadline := rfl

@[simp] theorem release_maxAttempts (s : EngineState) (i : Nat) :
    (release s i).maxAttempts = s.maxAttempts := rfl

@[simp] theorem releaseHeld_tasks (s : EngineState) (t : TaskNode) :
    (releaseHeld s t).tasks = s.tasks := by
  unfold releaseHeld; cases t.worker <;> rfl

@[simp] theorem releaseHeld_log (s : EngineState) (t : TaskNode) :
    (releaseHeld s t).log = s.log := by
  unfold releaseHeld; cases t.worker <;> rfl

@[simp] theorem releaseHeld_clock (s : EngineState) (t : TaskNode) :
    (releaseHeld s t).clock = s.clock := by
  unfold releaseHeld; cases t.worker <;> rfl

@[simp] theorem releaseHeld_shutdownDeadline (s : EngineState) (t : TaskNode) :
    (releaseHeld s t).shutdownDeadline = s.shutdownDeadline := by
  unfold releaseHeld; cases t.worker <;> rfl

@[simp] theorem releaseHeld_maxAttempts (s : EngineState) (t : TaskNode) :
    (releaseHeld s t).maxAttempts = s.maxAttempts := by
  unfold releaseHeld; cases t.worker <;> rfl

@[simp] theorem cancelT_id (t : TaskNode) : (cancelT t).id = t.id := rfl

@[simp] theorem cancelT_deps (t : TaskNode) : (cancelT t).deps = t.deps := rfl

@[simp] theorem forced_cancelT (t : TaskNode) : forced (cancelT t) = false := rfl

/-! Characterization of `cancelOne` and of the drain fold. -/

theorem cancelOne_tasks (s : EngineState) (i : Nat) :
    (cancelOne s i).tasks = s.tasks.map (fun t => if t.id == i then cancelT t else t) := by
  unfold cancelOne
  cases h : findTask s i with
  | none =>
    have hnone : ∀ t ∈ s.tasks, ¬((fun t : TaskNode => t.id == i) t = true) :=
      List.find?_eq_none.mp h
    have : s.tasks.map (fun t => if t.id == i then cancelT t else t) = s.tasks.map id := by
      refine List.map_congr_left ?_
      intro t ht
      have := hnone t ht
      simp only [Bool.not_eq_true] at this
      simp [this]
    rw [this, List.map_id]
  | some t => simp

theorem cancelOne_log (s : EngineState) (i : Nat) (t : TaskNode)
    (h : findTask s i = some t) :
    (cancelOne s i).log = s.log ++ [transitionEvent s.clock i t.parent t.worker EventKind.cancelled] := by
  unfold cancelOne
  rw [h]
  simp

theorem cancelOne_log_mono (s : EngineState) (i : Nat) (e : Event)
    (he : e ∈ s.log) : e ∈ (cancelOne s i).log := by
  unfold cancelOne
  cases h : findTask s i with
  | none => exact he
  | some t => simp [he]

theorem cancelOne_clock_le (s : EngineState) (i : Nat) : s.clock ≤ (cancelOne s i).clock := by
  unfold cancelOne
  cases h : findTask s i with
  | none => exact le_refl _
  | some t => simp

@[simp] theorem cancelOne_shutdownDeadline (s : EngineState) (i : Nat) :
    (cancelOne s i).shutdownDeadline = s.shutdownDeadline := by
  unfold cancelOne
  cases h : findTask s i with
  | none => rfl
  | some t => simp

@[simp] theorem cancelOne_maxAttempts (s : EngineState) (i : Nat) :
    (cancelOne s i).maxAttempts = s.maxAttempts := by
  unfold cancelOne
  cases h : findTask s i with
  | none => rfl
  | some t => simp

theorem foldl_cancelOne_tasks (ids : List Nat) (s : EngineState) :
    (ids.foldl cancelOne s).tasks = s.tasks.map (fun t => if ids.contains t.id then cancelT t else t) := by
  induction ids generalizing s with
  | nil =>
    simp only [List.foldl_nil]
    have : s.tasks.map (fun t => if ([] : List Nat).contains t.id then cancelT t else t) = s.tasks.map id := by
      refine List.map_congr_left ?_
      intro t _
      simp
    rw [this, List.map_id]
  | cons j ids ih =>
    simp only [List.foldl_cons]
    rw [ih, cancelOne_tasks, List.map_map]
    refine List.map_congr_left ?_
    intro t _
    simp only [Function.comp]
    by_cases h1 : t.id = j
    · by_cases h2 : t.id ∈ ids
      · simp [h1, h2, cancelT]
      · simp [h1, h2, cancelT]
    · by_cases h2 : t.id ∈ ids
      · simp [h1, h2, cancelT]
      · simp [h1, h2, cancelT]

end Engine

namespace Engine

theorem foldl_cancelOne_log_mono (ids : List Nat) (s : EngineState) (e : Event)
    (he : e ∈ s.log) : e ∈ (ids.foldl cancelOne s).log := by
  induction ids generalizing s with
  | nil => exact he
  | cons j ids ih => exact ih (cancelOne s j) (cancelOne_log_mono s j e he)

theorem foldl_cancelOne_clock_le (ids : List Nat) (s : EngineState) :
    s.clock ≤ (ids.foldl cancelOne s).clock := by
  induction ids generalizing s with
  | nil => exact le_refl _
  | cons j ids ih => exact le_trans (cancelOne_clock_le s j) (ih (cancelOne s j))

@[simp] theorem foldl_cancelOne_shutdownDeadline (ids : List Nat) (s : EngineState) :
    (ids.foldl cancelOne s).shutdownDeadline = s.shutdownDeadline := by
  induction ids generalizing s with
  | nil => rfl
  | cons j ids ih => rw [List.foldl_cons, ih, cancelOne_shutdownDeadline]

@[simp] theorem foldl_cancelOne_maxAttempts (ids : List Nat) (s : EngineState) :
    (ids.foldl cancelOne s).maxAttempts = s.maxAttempts := by
  induction ids generalizing s with
  | nil => rfl
  | cons j ids ih => rw [List.foldl_cons, ih, cancelOne_maxAttempts]

theorem foldl_cancelOne_cancelled_event (ids : List Nat) (s : EngineState) (i : Nat)
    (hin : i ∈ ids) (hex : ∃ t ∈ s.tasks, t.id = i) :
    ∃ e ∈ (ids.foldl cancelOne s).log, e.taskId = i ∧ e.kind = EventKind.cancelled := by
  induction ids generalizing s with
  | nil => cases hin
  | cons j ids ih =>
    rw [List.foldl_cons]
    rcases List.mem_cons.mp hin with hj | hmem
    · subst hj
      obtain ⟨t, ht, hid⟩ := hex
      have hsome : (findTask s i).isSome = true := by
        refine List.find?_isSome.mpr ⟨t, ht, ?_⟩
        simp [hid]
      obtain ⟨u, hu⟩ := Option.isSome_iff_exists.mp hsome
      have hlog := cancelOne_log s i u hu
      have hmem' : transitionEvent s.clock i u.parent u.worker EventKind.cancelled ∈ (cancelOne s i).log := by
        rw [hlog]; simp
      exact ⟨_, foldl_cancelOne_log_mono ids (cancelOne s i) _ hmem', rfl, rfl⟩
    · refine ih (cancelOne s j) hmem ?_
      obtain ⟨t, ht, hid⟩ := hex
      refine ⟨if t.id == j then cancelT t else t, ?_, ?_⟩
      · rw [cancelOne_tasks]
        exact List.mem_map_of_mem _ ht
      · by_cases h : (t.id == j) = true
        · rw [if_pos h]; exact hid
        · rw [if_neg h]; exact hid

theorem drain_of_deadline (s : EngineState) (d : Nat)
    (hsd : s.shutdownDeadline = some d) (hd : d ≤ s.clock) :
    drain s = ((s.tasks.filter forced).map (fun t => t.id)).foldl cancelOne s := by
  unfold drain
  rw [hsd]
  simp [hd]

theorem drain_no_shutdown (s : EngineState) (hsd : s.shutdownDeadline = none) :
    drain s = s := by
  unfold drain
  rw [hsd]

theorem drain_tasks_not_forced (s : EngineState) (d : Nat)
    (hsd : s.shutdownDeadline = some d) (hd : d ≤ s.clock) :
    ∀ t ∈ (drain s).tasks, forced t = false := by
  rw [drain_of_deadline s d hsd hd, foldl_cancelOne_tasks]
  intro x hx
  obtain ⟨t, ht, rfl⟩ := List.mem_map.mp hx
  by_cases hc : ((s.tasks.filter forced).map (fun t => t.id)).contains t.id = true
  · rw [if_pos hc]
    exact forced_cancelT t
  · have hnf : forced t = false := by
      by_contra hf
      have hf' : forced t = true := by
        cases hft : forced t
        · exact absurd hft hf
        · rfl
      have hmm : t.id ∈ (s.tasks.filter forced).map (fun t => t.id) :=
        List.mem_map_of_mem _ (List.mem_filter.mpr ⟨ht, hf'⟩)
      exact hc (List.elem_iff.mpr hmm)
    rw [if_neg hc]
    exact hnf

theorem drain_drain_log (s : EngineState) : (drain (drain s)).log = (drain s).log := by
  cases hsd : s.shutdownDeadline with
  | none =>
    rw [drain_no_shutdown s hsd, drain_no_shutdown s hsd]
  | some d =>
    by_cases hd : d ≤ s.clock
    · have hsd' : (drain s).shutdownDeadline = some d := by
        rw [drain_of_deadline s d hsd hd]; simp [hsd]
      have hd' : d ≤ (drain s).clock := by
        rw [drain_of_deadline s d hsd hd]
        exact le_trans hd (foldl_cancelOne_clock_le _ s)
      rw [drain_of_deadline (drain s) d hsd' hd']
      have hfe : (drain s).tasks.filter forced = [] :=
        List.filter_eq_nil_iff.mpr (by
          intro t ht
          have := drain_tasks_not_forced s d hsd hd t ht
          simp [this])
      rw [hfe]
      rfl
    · have : drain s = s := by
        unfold drain
        rw [hsd]
        simp [hd]
      rw [this, this]

end Engine

namespace Engine

/-- Two tasks of a store with pairwise-distinct identifiers that share an
identifier are the same task. -/
theorem eq_of_mem_of_id_eq {l : List TaskNode}
    (h : l.Pairwise (fun a b => a.id ≠ b.id)) {a b : TaskNode}
    (ha : a ∈ l) (hb : b ∈ l) (hid : a.id = b.id) : a = b := by
  by_contra hne
  have hsym : Symmetric (fun a b : TaskNode => a.id ≠ b.id) := by
    intro x y hxy heq
    exact hxy heq.symm
  exact h.forall hsym ha hb hne hid

/-- In a store with pairwise-distinct identifiers, `sameTree` holds exactly
when a task with that identifier exists in the given tree. -/
theorem sameTree_true_iff (s : EngineState) (root d : Nat)
    (hids : s.tasks.Pairwise (fun a b => a.id ≠ b.id)) :
    sameTree s root d = true ↔ ∃ t ∈ s.tasks, t.id = d ∧ t.root = root := by
  unfold sameTree
  cases h : findTask s d with
  | none =>
    simp only [Bool.false_eq_true, false_iff]
    rintro ⟨t, ht, hid, hroot⟩
    have := List.find?_eq_none.mp h t ht
    simp [hid] at this
  | some u =>
    have h' : s.tasks.find? (fun t => t.id == d) = some u := h
    have hpred := List.find?_some h'
    have hmem : u ∈ s.tasks := List.mem_of_find?_eq_some h'
    have huid : u.id = d := by simpa using hpred
    constructor
    · intro hr
      exact ⟨u, hmem, huid, by simpa using hr⟩
    · rintro ⟨t, ht, hid, hroot⟩
      have : u = t := eq_of_mem_of_id_eq hids hmem ht (by rw [huid, hid])
      subst this
      simp [hroot]

/-- Dependency-list validation as membership: `deps.all (sameTree ...)` holds
exactly when every dependency identifier names a task of the tree. -/
theorem all_sameTree_iff (s : EngineState) (root : Nat) (deps : List Nat)
    (hids : s.tasks.Pairwise (fun a b => a.id ≠ b.id)) :
    deps.all (fun d => sameTree s root d) = true ↔
      ∀ d ∈ deps, ∃ t ∈ s.tasks, t.id = d ∧ t.root = root := by
  rw [List.all_eq_true]
  exact ⟨fun h d hd => (sameTree_true_iff s root d hids).mp (h d hd),
    fun h d hd => (sameTree_true_iff s root d hids).mpr (h d hd)⟩

end Engine

open ClinicalTrial Engine

/-- C9: `run_clinical_trial_matching` ignores its `model_platform` and
`model_type` parameters: the model it builds is always the hard-coded vLLM
MedGemma model at localhost with temperature 0, so two runs differing only
in those parameters configure an identical model. -/
theorem c9_model_parameters_ignored (p₁ p₂ : ModelPlatformType) (m₁ m₂ : ModelType)
    (ehr tc : String) :
    createModel p₁ m₁ = createModel p₂ m₂ ∧
    createModel p₁ m₁ = { platform := ModelPlatformType.vllm, modelType := "google/medgemma-1.5-4b-it", url := "http://localhost:8000/v1", apiKey := "vllm", temperature := 0 } ∧
    (run_clinical_trial_matching ehr tc p₁ m₁).1.default_model = (run_clinical_trial_matching ehr tc p₂ m₂).1.default_model :=
  ⟨rfl, rfl, rfl⟩

/-- C10: `run_clinical_trial_matching` always registers exactly the five
single-agent workers, in order (EHR Analyst, Inclusion Criteria Evaluator,
Exclusion Criteria Evaluator, Medical Verifier, Final Adjudicator), each a
ChatAgent with `tools = none`; and always submits a single root task with
id "clinical_trial_screening" whose `additional_info` maps exactly
"patient_ehr" and "trial_criteria" to the two input strings. -/
theorem c10_workforce_registration_and_root_task (ehr tc : String)
    (p : ModelPlatformType) (m : ModelType) :
    (run_clinical_trial_matching ehr tc p m).1.workers.map Prod.fst =
      ["EHR Analyst - Extracts and organizes patient clinical data from Electronic Health Records for trial screening", "Inclusion Criteria Evaluator - Evaluates whether the patient meets each inclusion criterion with detailed reasoning", "Exclusion Criteria Evaluator - Evaluates whether the patient has any exclusionary conditions with detailed reasoning", "Medical Verifier - Cross-checks and verifies the accuracy of all criteria evaluations for quality assurance", "Final Adjudicator - Produces the final structured eligibility report with determination and recommendations"] ∧
    (run_clinical_trial_matching ehr tc p m).1.workers.map (fun x => x.2.roleName) =
      ["EHR Analyst", "Inclusion Criteria Evaluator", "Exclusion Criteria Evaluator", "Medical Verifier", "Final Adjudicator"] ∧
    (run_clinical_trial_matching ehr tc p m).1.workers.map (fun x => x.2.tools) =
      [none, none, none, none, none] ∧
    (run_clinical_trial_matching ehr tc p m).2.id = "clinical_trial_screening" ∧
    (run_clinical_trial_matching ehr tc p m).2.additional_info =
      [("patient_ehr", ehr), ("trial_criteria", tc)] :=
  ⟨rfl, rfl, rfl, rfl, rfl⟩

/-- C5: `decompose` is deterministic: with the example's model configuration
(temperature 0, as `createModel` hard-codes) — indeed with any
temperature-0 model — two invocations of `decompose` on an identical
task/state pair yield an identical subtask list and dependency structure,
whatever the per-invocation sampling seeds. -/
theorem c5_decompose_deterministic (p : ModelPlatformType) (mt : ModelType)
    (seed₁ seed₂ : Nat) (s : EngineState) (t : TaskNode) :
    decompose (createModel p mt) seed₁ s t = decompose (createModel p mt) seed₂ s t ∧
    ∀ m : ModelSpec, m.temperature = 0 →
      decompose m seed₁ s t = decompose m seed₂ s t := by
  constructor
  · simp [decompose, samplePlan, createModel]
  · intro m hm
    simp [decompose, samplePlan, hm]

/-- C4: `requestShutdown` is idempotent: issuing it twice with the same
deadline produces the same final state as issuing it once (also through
`exec`), and a second deadline drain appends no further CANCELLED events
to the telemetry log — one CANCELLED wave, not two. -/
theorem c4_shutdown_idempotent (s : EngineState) (d : Nat) :
    requestShutdown (requestShutdown s d) d = requestShutdown s d ∧
    exec (exec s (Action.requestShutdownA d)) (Action.requestShutdownA d) =
      exec s (Action.requestShutdownA d) ∧
    (drain (drain s)).log = (drain s).log := by
  have key : ∀ (u : EngineState) (x : Nat), u.shutdownDeadline = some x →
      requestShutdown u d = u := by
    intro u x hu
    unfold requestShutdown
    rw [hu]
  have h1 : requestShutdown (requestShutdown s d) d = requestShutdown s d := by
    cases hsd : s.shutdownDeadline with
    | none =>
      have hset : (requestShutdown s d).shutdownDeadline = some d := by
        unfold requestShutdown
        rw [hsd]
      exact key _ d hset
    | some x =>
      have hs : requestShutdown s d = s := key s x hsd
      rw [hs, hs]
  exact ⟨h1, h1, drain_drain_log s⟩

namespace Engine

theorem findTask_some_id {s : EngineState} {i : Nat} {t : TaskNode}
    (h : findTask s i = some t) : t.id = i := by
  have h' : s.tasks.find? (fun t => t.id == i) = some t := h
  have := List.find?_some h'
  simpa using this

theorem findTask_some_mem {s : EngineState} {i : Nat} {t : TaskNode}
    (h : findTask s i = some t) : t ∈ s.tasks := by
  have h' : s.tasks.find? (fun t => t.id == i) = some t := h
  exact List.mem_of_find?_eq_some h'

end Engine

/-- C6: under the retry policy, a worker failure within the attempt budget
re-opens the subtask with its attempt count incremented by one and logs a
RETRIED event, while a failure that has exhausted the budget transitions
the subtask to FAILED; Scenario C (two failures within a budget of 3,
success on the third attempt) ends SUCCEEDED with attempt count 3 and
exactly two RETRIED events logged. -/
theorem c6_retry_policy (s : EngineState) (ti : Nat) (t : TaskNode)
    (hfind : findTask s ti = some t) (hrun : t.status = Status.running) :
    (t.attempts < s.maxAttempts →
      (finishFail s ti).log = s.log ++ [transitionEvent s.clock ti t.parent t.worker EventKind.retried] ∧
      { t with status := Status.opened, worker := none, attempts := t.attempts + 1 } ∈ (finishFail s ti).tasks) ∧
    (¬t.attempts < s.maxAttempts →
      (finishFail s ti).log = s.log ++ [transitionEvent s.clock ti t.parent t.worker EventKind.failed] ∧
      { t with status := Status.failed, worker := none } ∈ (finishFail s ti).tasks) ∧
    (runActions (init 3) scenarioC).tasks.map (fun u => (u.status, u.attempts)) = [(Status.succeeded, 3)] ∧
    ((runActions (init 3) scenarioC).log.filter (fun e => e.kind == EventKind.retried)).length = 2 := by
  have hb : (t.status == Status.running) = true := by simp [hrun]
  have hmem : t ∈ s.tasks := findTask_some_mem hfind
  have hid : (t.id == ti) = true := by simp [findTask_some_id hfind]
  refine ⟨?_, ?_, by decide, by decide⟩
  · intro hlt
    unfold finishFail
    split
    next heq =>
      rw [hfind] at heq
      cases heq
    next t' heq =>
      rw [hfind] at heq
      cases heq
      rw [if_pos hb, if_pos hlt]
      constructor
      · simp
      · simp only [updateTask_tasks, releaseHeld_tasks]
        have hmm := List.mem_map_of_mem
          (fun u : TaskNode => if u.id == ti then { u with status := Status.opened, worker := none, attempts := u.attempts + 1 } else u) hmem
        simpa [hid] using hmm
  · intro hge
    unfold finishFail
    split
    next heq =>
      rw [hfind] at heq
      cases heq
    next t' heq =>
      rw [hfind] at heq
      cases heq
      rw [if_pos hb, if_neg hge]
      constructor
      · simp
      · simp only [updateTask_tasks, releaseHeld_tasks]
        have hmm := List.mem_map_of_mem
          (fun u : TaskNode => if u.id == ti then { u with status := Status.failed, worker := none } else u) hmem
        simpa [hid] using hmm

/-- C6 witness: the general clauses applied in the state reached after the
first dispatch of Scenario C, where the single task is RUNNING with
attempt count 1 and budget 3. -/
theorem c6_retry_policy_witness :
    ((1 : Nat) < 3 →
      (finishFail (runActions (init 3) [Action.registerW 0, Action.createT 1 none "screen" [] [], Action.dispatchT 1 0]) 1).log = (runActions (init 3) [Action.registerW 0, Action.createT 1 none "screen" [] [], Action.dispatchT 1 0]).log ++ [transitionEvent (runActions (init 3) [Action.registerW 0, Action.createT 1 none "screen" [] [], Action.dispatchT 1 0]).clock 1 none (some 0) EventKind.retried] ∧
      { newTask 1 none 1 "screen" [] [] with status := Status.opened, worker := none, attempts := 2, root := 1 } ∈ (finishFail (runActions (init 3) [Action.registerW 0, Action.createT 1 none "screen" [] [], Action.dispatchT 1 0]) 1).tasks) ∧
    (¬(1 : Nat) < 3 →
      (finishFail (runActions (init 3) [Action.registerW 0, Action.createT 1 none "screen" [] [], Action.dispatchT 1 0]) 1).log = (runActions (init 3) [Action.registerW 0, Action.createT 1 none "screen" [] [], Action.dispatchT 1 0]).log ++ [transitionEvent (runActions (init 3) [Action.registerW 0, Action.createT 1 none "screen" [] [], Action.dispatchT 1 0]).clock 1 none (some 0) EventKind.failed] ∧
      { newTask 1 none 1 "screen" [] [] with status := Status.failed, worker := none } ∈ (finishFail (runActions (init 3) [Action.registerW 0, Action.createT 1 none "screen" [] [], Action.dispatchT 1 0]) 1).tasks) ∧
    (runActions (init 3) scenarioC).tasks.map (fun u => (u.status, u.attempts)) = [(Status.succeeded, 3)] ∧
    ((runActions (init 3) scenarioC).log.filter (fun e => e.kind == EventKind.retried)).length = 2 :=
  c6_retry_policy (runActions (init 3) [Action.registerW 0, Action.createT 1 none "screen" [] [], Action.dispatchT 1 0]) 1
    { newTask 1 none 1 "screen" [] [] with status := Status.running, worker := some 0 }
    (by decide) rfl

/-- C7: in a store with distinct task identifiers, `createTask` succeeds —
inserting the new task in state OPEN — exactly when every identifier in
the dependency list names an existing task of the same tree as the new
task; otherwise it fails with InvalidDependency and the engine step leaves
the store unchanged. -/
theorem c7_createTask_dependency_validation (s : EngineState) (i : Nat)
    (parent : Option Nat) (content : String) (context : List (String × String))
    (deps : List Nat)
    (hids : s.tasks.Pairwise (fun a b => a.id ≠ b.id)) :
    (∀ s', createTask s i parent content context deps = Except.ok s' →
      (∀ d ∈ deps, ∃ t ∈ s.tasks, t.id = d ∧ t.root = taskRoot s parent i) ∧
      s'.tasks = s.tasks.map (addChild parent i) ++ [newTask i parent (taskRoot s parent i) content context deps] ∧
      (newTask i parent (taskRoot s parent i) content context deps).status = Status.opened) ∧
    (∀ err, createTask s i parent content context deps = Except.error err →
      err = StoreError.invalidDependency ∧
      ¬(∀ d ∈ deps, ∃ t ∈ s.tasks, t.id = d ∧ t.root = taskRoot s parent i) ∧
      exec s (Action.createT i parent content context deps) = s) := by
  by_cases hall : deps.all (fun d => sameTree s (taskRoot s parent i) d) = true
  · have hok : createTask s i parent content context deps =
        Except.ok { s with tasks := s.tasks.map (addChild parent i) ++ [newTask i parent (taskRoot s parent i) content context deps], log := s.log ++ [createdEvent s.clock i parent deps], clock := s.clock + 1 } := by
      unfold createTask
      rw [if_pos hall]
    constructor
    · intro s' hs'
      rw [hok] at hs'
      cases hs'
      exact ⟨(all_sameTree_iff s (taskRoot s parent i) deps hids).mp hall, rfl, rfl⟩
    · intro err herr
      rw [hok] at herr
      cases herr
  · have herr : createTask s i parent content context deps = Except.error StoreError.invalidDependency := by
      unfold createTask
      rw [if_neg hall]
    constructor
    · intro s' hs'
      rw [herr] at hs'
      cases hs'
    · intro err he
      rw [herr] at he
      cases he
      refine ⟨rfl, ?_, ?_⟩
      · intro hforall
        exact hall ((all_sameTree_iff s (taskRoot s parent i) deps hids).mpr hforall)
      · have hred : exec s (Action.createT i parent content context deps) =
            if (s.tasks.any fun t => t.id == i) = true then s
            else match createTask s i parent content context deps with
              | Except.ok s' => s'
              | Except.error _ => s := rfl
        rw [hred]
        by_cases hany : (s.tasks.any fun t => t.id == i) = true
        · rw [if_pos hany]
        · rw [if_neg hany, herr]

/-- C7 witness: the success clause applied on a two-task store (a root and
one child) to a valid creation of a third task depending on the root:
the resulting store is the mapped store plus the new OPEN task. -/
theorem c7_createTask_dependency_validation_witness :
    ({ runActions (init 3) [Action.createT 1 none "root" [] [], Action.createT 2 (some 1) "leaf" [] []] with tasks := (runActions (init 3) [Action.createT 1 none "root" [] [], Action.createT 2 (some 1) "leaf" [] []]).tasks.map (addChild (some 1) 3) ++ [newTask 3 (some 1) (taskRoot (runActions (init 3) [Action.createT 1 none "root" [] [], Action.createT 2 (some 1) "leaf" [] []]) (some 1) 3) "check" [] [1]], log := (runActions (init 3) [Action.createT 1 none "root" [] [], Action.createT 2 (some 1) "leaf" [] []]).log ++ [createdEvent (runActions (init 3) [Action.createT 1 none "root" [] [], Action.createT 2 (some 1) "leaf" [] []]).clock 3 (some 1) [1]], clock := (runActions (init 3) [Action.createT 1 none "root" [] [], Action.createT 2 (some 1) "leaf" [] []]).clock + 1 } : EngineState).tasks = (runActions (init 3) [Action.createT 1 none "root" [] [], Action.createT 2 (some 1) "leaf" [] []]).tasks.map (addChild (some 1) 3) ++ [newTask 3 (some 1) (taskRoot (runActions (init 3) [Action.createT 1 none "root" [] [], Action.createT 2 (some 1) "leaf" [] []]) (some 1) 3) "check" [] [1]] :=
  ((c7_createTask_dependency_validation (runActions (init 3) [Action.createT 1 none "root" [] [], Action.createT 2 (some 1) "leaf" [] []]) 3 (some 1) "check" [] [1] (by decide)).1
    { runActions (init 3) [Action.createT 1 none "root" [] [], Action.createT 2 (some 1) "leaf" [] []] with tasks := (runActions (init 3) [Action.createT 1 none "root" [] [], Action.createT 2 (some 1) "leaf" [] []]).tasks.map (addChild (some 1) 3) ++ [newTask 3 (some 1) (taskRoot (runActions (init 3) [Action.createT 1 none "root" [] [], Action.createT 2 (some 1) "leaf" [] []]) (some 1) 3) "check" [] [1]], log := (runActions (init 3) [Action.createT 1 none "root" [] [], Action.createT 2 (some 1) "leaf" [] []]).log ++ [createdEvent (runActions (init 3) [Action.createT 1 none "root" [] [], Action.createT 2 (some 1) "leaf" [] []]).clock 3 (some 1) [1]], clock := (runActions (init 3) [Action.createT 1 none "root" [] [], Action.createT 2 (some 1) "leaf" [] []]).clock + 1 }
    rfl).2.1

namespace Engine

/-- Two workers of a registry with pairwise-distinct identifiers that share
an identifier are the same worker. -/
theorem eq_of_mem_of_wid_eq {l : List WorkerNode}
    (h : l.Pairwise (fun a b => a.id ≠ b.id)) {a b : WorkerNode}
    (ha : a ∈ l) (hb : b ∈ l) (hid : a.id = b.id) : a = b := by
  by_contra hne
  have hsym : Symmetric (fun a b : WorkerNode => a.id ≠ b.id) := by
    intro x y hxy heq
    exact hxy heq.symm
  exact h.forall hsym ha hb hne hid

/-- Replaying an extended log is replaying the extension on the rebuilt
tree. -/
theorem reconstruct_append (rs : List Event) (r : Event) :
    reconstruct (rs ++ [r]) = applyRecord (reconstruct rs) r := by
  unfold reconstruct
  rw [List.foldl_append]
  rfl

/-- The empty initial state satisfies the invariant. -/
theorem inv_init (m : Nat) : Inv (init m) := by
  refine ⟨List.Pairwise.nil, List.Pairwise.nil, ?_, ?_, List.Pairwise.nil, ?_, ?_, ?_, ?_, ?_, rfl⟩
  all_goals simp [init]

/-- `requestShutdown` preserves the invariant. -/
theorem inv_requestShutdown (s : EngineState) (d : Nat) (h : Inv s) :
    Inv (requestShutdown s d) := by
  unfold requestShutdown
  cases hsd : s.shutdownDeadline with
  | some x => exact h
  | none => exact ⟨h.idsT, h.idsW, h.nrw, h.rwx, h.otw, h.wb, h.times, h.se, h.sx, h.sd, h.rep⟩

/-- Worker registration preserves the invariant. -/
theorem inv_registerW (s : EngineState) (i : Nat) (h : Inv s) :
    Inv (exec s (Action.registerW i)) := by
  have hred : exec s (Action.registerW i) =
      (match register s i with | Except.ok s' => s' | Except.error _ => s) := rfl
  rw [hred]
  unfold register
  by_cases hany : (s.workers.any fun w => w.id == i) = true
  · rw [if_pos hany]
    exact h
  · rw [if_neg hany]
    have hfresh : ∀ w ∈ s.workers, w.id ≠ i := by
      intro w hw heq
      exact hany (List.any_eq_true.mpr ⟨w, hw, by simp [heq]⟩)
    refine ⟨h.idsT, ?_, h.nrw, ?_, h.otw, ?_, h.times, h.se, h.sx, h.sd, h.rep⟩
    · rw [List.pairwise_append]
      refine ⟨h.idsW, List.pairwise_singleton _ _, ?_⟩
      intro a ha b hb
      have hb' : b = { id := i, busy := false } := by simpa using hb
      rw [hb']
      exact hfresh a ha
    · intro t ht hrun
      obtain ⟨w, hw, hbound, hbusy⟩ := h.rwx t ht hrun
      exact ⟨w, List.mem_append.mpr (Or.inl hw), hbound, hbusy⟩
    · intro w hw hbusy
      rcases List.mem_append.mp hw with hw' | hw'
      · exact h.wb w hw' hbusy
      · have hw'' : w = { id := i, busy := false } := by simpa using hw'
        rw [hw''] at hbusy
        cases hbusy

end Engine

namespace Engine

@[simp] theorem addChild_id (parent : Option Nat) (i : Nat) (t : TaskNode) :
    (addChild parent i t).id = t.id := by
  unfold addChild
  split <;> rfl

@[simp] theorem addChild_status (parent : Option Nat) (i : Nat) (t : TaskNode) :
    (addChild parent i t).status = t.status := by
  unfold addChild
  split <;> rfl

@[simp] theorem addChild_worker (parent : Option Nat) (i : Nat) (t : TaskNode) :
    (addChild parent i t).worker = t.worker := by
  unfold addChild
  split <;> rfl

@[simp] theorem addChild_deps (parent : Option Nat) (i : Nat) (t : TaskNode) :
    (addChild parent i t).deps = t.deps := by
  unfold addChild
  split <;> rfl

/-- Task creation preserves the invariant. -/
theorem inv_createT (s : EngineState) (i : Nat) (parent : Option Nat)
    (content : String) (context : List (String × String)) (deps : List Nat)
    (h : Inv s) : Inv (exec s (Action.createT i parent content context deps)) := by
  have hred : exec s (Action.createT i parent content context deps) =
      if (s.tasks.any fun t => t.id == i) = true then s
      else match createTask s i parent content context deps with
        | Except.ok s' => s'
        | Except.error _ => s := rfl
  rw [hred]
  by_cases hany : (s.tasks.any fun t => t.id == i) = true
  · rw [if_pos hany]
    exact h
  · rw [if_neg hany]
    have hfresh : ∀ t ∈ s.tasks, t.id ≠ i := fun t ht heq =>
      hany (List.any_eq_true.mpr ⟨t, ht, by simp [heq]⟩)
    unfold createTask
    by_cases hall : (deps.all fun d => sameTree s (taskRoot s parent i) d) = true
    · rw [if_pos hall]
      show Inv { s with tasks := s.tasks.map (addChild parent i) ++ [newTask i parent (taskRoot s parent i) content context deps], log := s.log ++ [createdEvent s.clock i parent deps], clock := s.clock + 1 }
      refine ⟨?_, ?_, ?_, ?_, ?_, ?_, ?_, ?_, ?_, ?_, ?_⟩
      ·
        rw [List.pairwise_append]
        refine ⟨?_, List.pairwise_singleton _ _, ?_⟩
        · rw [List.pairwise_map]
          simpa using h.idsT
        · intro a ha b hb
          have hb' : b = newTask i parent (taskRoot s parent i) content context deps := by
            simpa using hb
          obtain ⟨t, ht, rfl⟩ := List.mem_map.mp ha
          rw [hb']
          simpa using hfresh t ht
      · exact h.idsW
      ·
        intro t' ht' hst
        rcases List.mem_append.mp ht' with hl | hr
        · obtain ⟨t, ht, rfl⟩ := List.mem_map.mp hl
          simp only [addChild_worker]
          refine h.nrw t ht ?_
          simpa using hst
        · have : t' = newTask i parent (taskRoot s parent i) content context deps := by simpa using hr
          rw [this]
          rfl
      ·
        intro t' ht' hst
        rcases List.mem_append.mp ht' with hl | hr
        · obtain ⟨t, ht, rfl⟩ := List.mem_map.mp hl
          simp only [addChild_worker]
          refine h.rwx t ht ?_
          simpa using hst
        · have ht'' : t' = newTask i parent (taskRoot s parent i) content context deps := by simpa using hr
          rw [ht''] at hst
          cases hst
      ·
        rw [List.pairwise_append]
        refine ⟨?_, List.pairwise_singleton _ _, ?_⟩
        · rw [List.pairwise_map]
          simpa using h.otw
        · intro a ha b hb
          have hb' : b = newTask i parent (taskRoot s parent i) content context deps := by
            simpa using hb
          rw [hb']
          rintro ⟨ha1, hb1, hw, hnw⟩
          cases hb1
      ·
        intro w hw hbusy
        obtain ⟨t, ht, hst, hbound⟩ := h.wb w hw hbusy
        refine ⟨addChild parent i t, List.mem_append.mpr (Or.inl (List.mem_map_of_mem _ ht)), ?_, ?_⟩
        · simpa using hst
        · simpa using hbound
      ·
        intro e he
        rcases List.mem_append.mp he with hl | hr
        · exact Nat.lt_trans (h.times e hl) (Nat.lt_succ_self _)
        · have : e = createdEvent s.clock i parent deps := by simpa using hr
          rw [this]
          exact Nat.lt_succ_self _
      ·
        intro t' ht' hst
        rcases List.mem_append.mp ht' with hl | hr
        · obtain ⟨t, ht, rfl⟩ := List.mem_map.mp hl
          have hst' : t.status = Status.succeeded := by simpa using hst
          obtain ⟨e, he, hte, hke⟩ := h.se t ht hst'
          exact ⟨e, List.mem_append.mpr (Or.inl he), by simpa using hte, hke⟩
        · have ht'' : t' = newTask i parent (taskRoot s parent i) content context deps := by simpa using hr
          rw [ht''] at hst
          cases hst
      ·
        intro e he hk
        rcases List.mem_append.mp he with hl | hr
        · obtain ⟨t, ht, hid⟩ := h.sx e hl hk
          exact ⟨addChild parent i t, List.mem_append.mpr (Or.inl (List.mem_map_of_mem _ ht)), by simpa using hid⟩
        · have : e = createdEvent s.clock i parent deps := by simpa using hr
          rw [this] at hk
          cases hk
      ·
        intro e he hk t' ht' hid d hd
        rcases List.mem_append.mp he with hl | hr
        · rcases List.mem_append.mp ht' with htl | htr
          · obtain ⟨t, ht, rfl⟩ := List.mem_map.mp htl
            have hid' : t.id = e.taskId := by simpa using hid
            have hd' : d ∈ t.deps := by simpa using hd
            obtain ⟨e2, he2, h1, h2, h3⟩ := h.sd e hl hk t ht hid' d hd'
            exact ⟨e2, List.mem_append.mpr (Or.inl he2), h1, h2, h3⟩
          · have ht'' : t' = newTask i parent (taskRoot s parent i) content context deps := by simpa using htr
            obtain ⟨told, htold, hidold⟩ := h.sx e hl hk
            have : told.id = i := by
              rw [hidold, ← hid, ht'']
              rfl
            exact absurd this (hfresh told htold)
        · have : e = createdEvent s.clock i parent deps := by simpa using hr
          rw [this] at hk
          cases hk
      ·
        rw [reconstruct_append, h.rep]
        show applyRecord (s.tasks.map projT) (createdEvent s.clock i parent deps) = _
        unfold applyRecord createdEvent
        rw [List.map_append, List.map_map]
        refine congrArg₂ (· ++ ·) ?_ rfl
        rw [List.map_map]
        refine List.map_congr_left ?_
        intro t _
        simp only [Function.comp]
        unfold addChild projT
        by_cases hp : parent == some t.id
        · rw [if_pos hp, if_pos hp]
        · rw [if_neg hp, if_neg hp]
    · rw [if_neg hall]
      exact h

end Engine

namespace Engine

theorem findWorker_some_id {s : EngineState} {i : Nat} {w : WorkerNode}
    (h : findWorker s i = some w) : w.id = i := by
  have h' : s.workers.find? (fun w => w.id == i) = some w := h
  have := List.find?_some h'
  simpa using this

theorem findWorker_some_mem {s : EngineState} {i : Nat} {w : WorkerNode}
    (h : findWorker s i = some w) : w ∈ s.workers := by
  have h' : s.workers.find? (fun w => w.id == i) = some w := h
  exact List.mem_of_find?_eq_some h'

/-- Task-id pairwise distinctness transfers along an id-preserving map. -/
theorem pairwise_ids_map {l : List TaskNode} (g : TaskNode → TaskNode)
    (hg : ∀ u, (g u).id = u.id) (h : l.Pairwise (fun a b => a.id ≠ b.id)) :
    (l.map g).Pairwise (fun a b => a.id ≠ b.id) := by
  rw [List.pairwise_map]
  refine h.imp ?_
  intro a b hne heq
  rw [hg a, hg b] at heq
  exact hne heq

/-- Dispatch of a ready task preserves the invariant. -/
theorem inv_dispatch (s : EngineState) (ti wi : Nat) (h : Inv s) :
    Inv (exec s (Action.dispatchT ti wi)) := by
  have hred : exec s (Action.dispatchT ti wi) = dispatch s ti wi := rfl
  rw [hred]
  unfold dispatch
  split
  next => exact h
  next t heq =>
  by_cases hg : (t.status == Status.opened && depsSucceeded s t && s.shutdownDeadline == none) = true
  case neg => rw [if_neg hg]; exact h
  case pos =>
  rw [if_pos hg]
  simp only [Bool.and_eq_true, beq_iff_eq] at hg
  obtain ⟨⟨hopen, hdeps⟩, hshut⟩ := hg
  cases hacq : acquire s wi with
  | error e => exact h
  | ok s1 =>
  have hs1 : ∃ w0, findWorker s wi = some w0 ∧ w0.busy = false ∧ s1 = setWorkerBusy s wi true := by
    unfold acquire at hacq
    split at hacq
    next => cases hacq
    next w0 hfw =>
      by_cases hb : w0.busy = true
      · rw [if_pos hb] at hacq
        cases hacq
      · rw [if_neg hb] at hacq
        cases hacq
        exact ⟨w0, hfw, by simpa using hb, rfl⟩
  obtain ⟨w0, hfw, hw0busy, rfl⟩ := hs1
  have hmemt : t ∈ s.tasks := findTask_some_mem heq
  have hidt : t.id = ti := findTask_some_id heq
  have hidt' : (t.id == ti) = true := by simp [hidt]
  have hw0mem : w0 ∈ s.workers := findWorker_some_mem hfw
  have hw0id : w0.id = wi := findWorker_some_id hfw
  have hnotwi : ∀ b ∈ s.tasks, b.status = Status.running → b.worker ≠ some wi := by
    intro b hb hbrun hbw
    obtain ⟨w', hw', hbound, hbusy⟩ := h.rwx b hb hbrun
    have hww : w'.id = wi := by
      rw [hbw] at hbound
      injection hbound with hh
      exact hh.symm
    have : w' = w0 := eq_of_mem_of_wid_eq h.idsW hw' hw0mem (by rw [hww, hw0id])
    rw [this] at hbusy
    rw [hbusy] at hw0busy
    cases hw0busy
  show Inv { updateTask (setWorkerBusy s wi true) ti (fun u => { u with status := Status.running, worker := some wi }) with log := (updateTask (setWorkerBusy s wi true) ti (fun u => { u with status := Status.running, worker := some wi })).log ++ [transitionEvent s.clock ti t.parent (some wi) EventKind.started], clock := s.clock + 1 }
  have hgid : ∀ u : TaskNode, ((fun u : TaskNode => if u.id == ti then { u with status := Status.running, worker := some wi } else u) u).id = u.id := by
    intro u
    by_cases hc : (u.id == ti) = true
    · simp [hc]
    · simp [hc]
  refine ⟨?_, ?_, ?_, ?_, ?_, ?_, ?_, ?_, ?_, ?_, ?_⟩
  · exact pairwise_ids_map _ hgid h.idsT
  · simp only [setWorkerBusy_workers, updateTask_workers]
    refine (List.pairwise_map.mpr (h.idsW.imp ?_))
    intro a b hne heqid
    apply hne
    by_cases ha : (a.id == wi) = true <;> by_cases hb : (b.id == wi) = true <;>
      simpa [ha, hb] using heqid
  · intro t' ht' hst
    simp only [updateTask_tasks, setWorkerBusy_tasks] at ht'
    obtain ⟨u, hu, rfl⟩ := List.mem_map.mp ht'
    by_cases hui : (u.id == ti) = true
    · exact absurd (by simp [hui]) hst
    · rw [if_neg hui] at hst ⊢
      exact h.nrw u hu hst
  · intro t' ht' hrun
    simp only [updateTask_tasks, setWorkerBusy_tasks] at ht'
    obtain ⟨u, hu, rfl⟩ := List.mem_map.mp ht'
    simp only [setWorkerBusy_workers, updateTask_workers]
    by_cases hui : (u.id == ti) = true
    · refine ⟨{ w0 with busy := true }, ?_, ?_, rfl⟩
      · have hmap : (fun w : WorkerNode => if w.id == wi then { w with busy := true } else w) w0 = { w0 with busy := true } := by
          simp [hw0id]
        rw [← hmap]
        exact List.mem_map_of_mem _ hw0mem
      · simp [hui, hw0id]
    · rw [if_neg hui] at hrun ⊢
      obtain ⟨w', hw', hbound, hbusy⟩ := h.rwx u hu hrun
      by_cases hwid : (w'.id == wi) = true
      · refine ⟨{ w' with busy := true }, ?_, ?_, rfl⟩
        · have hmap : (fun w : WorkerNode => if w.id == wi then { w with busy := true } else w) w' = { w' with busy := true } := by
            simp [hwid]
          rw [← hmap]
          exact List.mem_map_of_mem _ hw'
        · simpa using hbound
      · refine ⟨w', ?_, hbound, hbusy⟩
        have hmap : (fun w : WorkerNode => if w.id == wi then { w with busy := true } else w) w' = w' := by
          simp [hwid]
        rw [← hmap]
        exact List.mem_map_of_mem _ hw'
  · simp only [updateTask_tasks, setWorkerBusy_tasks]
    rw [List.pairwise_map]
    refine ((h.otw.and h.idsT).imp_of_mem ?_)
    rintro a b hamem hbmem ⟨hRab, hneq⟩ ⟨hga, hgb, hgw, hgn⟩
    by_cases hai : (a.id == ti) = true
    · by_cases hbi : (b.id == ti) = true
      · rw [beq_iff_eq] at hai hbi
        exact hneq (by rw [hai, hbi])
      · rw [if_neg hbi] at hgb hgw
        rw [if_pos hai] at hgw
        exact hnotwi b hbmem hgb (by rw [← hgw])
    · by_cases hbi : (b.id == ti) = true
      · rw [if_neg hai] at hga hgw
        rw [if_pos hbi] at hgw
        exact hnotwi a hamem hga (by rw [hgw])
      · rw [if_neg hai] at hga hgw hgn
        rw [if_neg hbi] at hgb hgw
        exact hRab ⟨hga, hgb, hgw, hgn⟩
  · intro w' hw' hbusy
    simp only [setWorkerBusy_workers, updateTask_workers] at hw'
    obtain ⟨w, hw, rfl⟩ := List.mem_map.mp hw'
    simp only [updateTask_tasks, setWorkerBusy_tasks]
    by_cases hwid : (w.id == wi) = true
    · rw [beq_iff_eq] at hwid
      refine ⟨(fun u : TaskNode => if u.id == ti then { u with status := Status.running, worker := some wi } else u) t, List.mem_map_of_mem _ hmemt, ?_, ?_⟩
      · simp [hidt']
      · simp [hidt', hwid]
    · rw [if_neg hwid] at hbusy ⊢
      obtain ⟨t2, ht2, hrun2, hbound2⟩ := h.wb w hw hbusy
      have ht2id : ¬(t2.id == ti) = true := by
        intro hcon
        rw [beq_iff_eq] at hcon
        have : t2 = t := eq_of_mem_of_id_eq h.idsT ht2 hmemt (by rw [hcon, hidt])
        rw [this, hopen] at hrun2
        cases hrun2
      refine ⟨t2, ?_, hrun2, hbound2⟩
      have hmap : (fun u : TaskNode => if u.id == ti then { u with status := Status.running, worker := some wi } else u) t2 = t2 := by
        simp [ht2id]
      rw [← hmap]
      exact List.mem_map_of_mem _ ht2
  · intro e he
    simp only [updateTask_log, setWorkerBusy_log] at he
    rcases List.mem_append.mp he with hl | hr
    · exact Nat.lt_trans (h.times e hl) (Nat.lt_succ_self _)
    · have : e = transitionEvent s.clock ti t.parent (some wi) EventKind.started := by simpa using hr
      rw [this]
      exact Nat.lt_succ_self _
  · intro t' ht' hst
    simp only [updateTask_tasks, setWorkerBusy_tasks] at ht'
    obtain ⟨u, hu, rfl⟩ := List.mem_map.mp ht'
    simp only [updateTask_log, setWorkerBusy_log]
    by_cases hui : (u.id == ti) = true
    · rw [if_pos hui] at hst
      cases hst
    · rw [if_neg hui] at hst ⊢
      obtain ⟨e, he, hte, hke⟩ := h.se u hu hst
      exact ⟨e, List.mem_append.mpr (Or.inl he), hte, hke⟩
  · intro e he hk
    simp only [updateTask_log, setWorkerBusy_log] at he
    simp only [updateTask_tasks, setWorkerBusy_tasks]
    rcases List.mem_append.mp he with hl | hr
    · obtain ⟨u, hu, hid⟩ := h.sx e hl hk
      refine ⟨(fun u : TaskNode => if u.id == ti then { u with status := Status.running, worker := some wi } else u) u, List.mem_map_of_mem _ hu, ?_⟩
      rw [hgid u]
      exact hid
    · have : e = transitionEvent s.clock ti t.parent (some wi) EventKind.started := by simpa using hr
      rw [this]
      refine ⟨(fun u : TaskNode => if u.id == ti then { u with status := Status.running, worker := some wi } else u) t, List.mem_map_of_mem _ hmemt, ?_⟩
      rw [hgid t]
      exact hidt
  · intro e he hk t'' ht'' hid2 d hd2
    simp only [updateTask_log, setWorkerBusy_log] at he ⊢
    simp only [updateTask_tasks, setWorkerBusy_tasks] at ht''
    obtain ⟨u, hu, rfl⟩ := List.mem_map.mp ht''
    have hud : ((fun u : TaskNode => if u.id == ti then { u with status := Status.running, worker := some wi } else u) u).deps = u.deps := by
      by_cases hc : (u.id == ti) = true
      · simp [hc]
      · simp [hc]
    rw [hud] at hd2
    rw [hgid u] at hid2
    rcases List.mem_append.mp he with hl | hr
    · obtain ⟨e2, he2, h1, h2, h3⟩ := h.sd e hl hk u hu hid2 d hd2
      exact ⟨e2, List.mem_append.mpr (Or.inl he2), h1, h2, h3⟩
    · have hev : e = transitionEvent s.clock ti t.parent (some wi) EventKind.started := by simpa using hr
      have huti : u.id = ti := by
        rw [hid2, hev]
        rfl
      have hut : u = t := eq_of_mem_of_id_eq h.idsT hu hmemt (by rw [huti, hidt])
      rw [hut] at hd2
      have hall := List.all_eq_true.mp hdeps d hd2
      have hsucc : ∃ td, findTask s d = some td ∧ td.status = Status.succeeded := by
        revert hall
        cases hfd : findTask s d with
        | none => intro hall; cases hall
        | some td =>
          intro hall
          refine ⟨td, rfl, ?_⟩
          simpa using hall
      obtain ⟨td, hfd, htds⟩ := hsucc
      have htdmem : td ∈ s.tasks := findTask_some_mem hfd
      have htdid : td.id = d := findTask_some_id hfd
      obtain ⟨e2, he2, hte2, hke2⟩ := h.se td htdmem htds
      refine ⟨e2, List.mem_append.mpr (Or.inl he2), by rw [hte2, htdid], hke2, ?_⟩
      rw [hev]
      exact h.times e2 he2
  · simp only [updateTask_log, setWorkerBusy_log, updateTask_tasks, setWorkerBusy_tasks]
    rw [reconstruct_append, h.rep]
    show setSt ti Status.running (s.tasks.map projT) = _
    unfold setSt
    rw [List.map_map, List.map_map]
    refine List.map_congr_left ?_
    intro u _
    simp only [Function.comp]
    by_cases hc : (u.id == ti) = true
    · have hc' : ((projT u).id == ti) = true := hc
      rw [if_pos hc, if_pos hc']
      rfl
    · have hc' : ¬((projT u).id == ti) = true := hc
      rw [if_neg hc, if_neg hc']

end Engine

namespace Engine

/-- Core preservation lemma for the finishing transitions (success, retry,
failure, forced cancellation): the found task leaves its status for a
non-RUNNING status, its worker is released and unbound, and one
non-STARTED transition event is appended. -/
theorem inv_finish_core (s : EngineState) (ti : Nat) (t : TaskNode)
    (st2 : Status) (k : EventKind) (att : TaskNode → Nat)
    (heq : findTask s ti = some t)
    (hnr : st2 ≠ Status.running)
    (hsucc : st2 = Status.succeeded → k = EventKind.succeeded)
    (hns : k ≠ EventKind.started)
    (hreplay : ∀ acc : List RebuiltTask, applyRecord acc (transitionEvent s.clock ti t.parent t.worker k) = setSt ti st2 acc)
    (h : Inv s) :
    Inv { updateTask (releaseHeld s t) ti (fun u => { u with status := st2, worker := none, attempts := att u }) with log := s.log ++ [transitionEvent s.clock ti t.parent t.worker k], clock := s.clock + 1 } := by
  have hmemt : t ∈ s.tasks := findTask_some_mem heq
  have hidt : t.id = ti := findTask_some_id heq
  have hidt' : (t.id == ti) = true := by simp [hidt]
  have hgid : ∀ u : TaskNode, ((fun u : TaskNode => if u.id == ti then { u with status := st2, worker := none, attempts := att u } else u) u).id = u.id := by
    intro u
    by_cases hc : (u.id == ti) = true
    · simp [hc]
    · simp [hc]
  have hgdeps : ∀ u : TaskNode, ((fun u : TaskNode => if u.id == ti then { u with status := st2, worker := none, attempts := att u } else u) u).deps = u.deps := by
    intro u
    by_cases hc : (u.id == ti) = true
    · simp [hc]
    · simp [hc]
  have hrun_of_worker : ∀ wid, t.worker = some wid → t.status = Status.running := by
    intro wid hw
    by_contra hn
    have := h.nrw t hmemt hn
    rw [hw] at this
    cases this
  have hsymotw : Symmetric (fun a b : TaskNode => ¬(a.status = Status.running ∧ b.status = Status.running ∧ a.worker = b.worker ∧ a.worker ≠ none)) := by
    intro x y hxy hc
    obtain ⟨hy, hx, hwyx, hny⟩ := hc
    refine hxy ⟨hx, hy, hwyx.symm, ?_⟩
    rw [← hwyx]
    exact hny
  refine ⟨?_, ?_, ?_, ?_, ?_, ?_, ?_, ?_, ?_, ?_, ?_⟩
  · simp only [updateTask_tasks, releaseHeld_tasks]
    exact pairwise_ids_map _ hgid h.idsT
  · simp only [updateTask_workers]
    cases hwt : t.worker with
    | none =>
      have hrel : releaseHeld s t = s := by
        unfold releaseHeld
        rw [hwt]
      rw [hrel]
      exact h.idsW
    | some wid =>
      have hrel : (releaseHeld s t).workers = s.workers.map (fun w => if w.id == wid then { w with busy := false } else w) := by
        unfold releaseHeld
        rw [hwt]
        rfl
      rw [hrel]
      refine (List.pairwise_map.mpr (h.idsW.imp ?_))
      intro a b hne heqid
      apply hne
      by_cases ha : (a.id == wid) = true <;> by_cases hb : (b.id == wid) = true <;>
        simpa [ha, hb] using heqid
  · intro t' ht' hst
    simp only [updateTask_tasks, releaseHeld_tasks] at ht'
    obtain ⟨u, hu, rfl⟩ := List.mem_map.mp ht'
    by_cases hui : (u.id == ti) = true
    · simp [hui]
    · rw [if_neg hui] at hst ⊢
      exact h.nrw u hu hst
  · intro t' ht' hrun
    simp only [updateTask_tasks, releaseHeld_tasks] at ht'
    obtain ⟨u, hu, rfl⟩ := List.mem_map.mp ht'
    simp only [updateTask_workers]
    by_cases hui : (u.id == ti) = true
    · rw [if_pos hui] at hrun
      exact absurd hrun hnr
    · rw [if_neg hui] at hrun ⊢
      obtain ⟨w', hw', hbound, hbusy⟩ := h.rwx u hu hrun
      cases hwt : t.worker with
      | none =>
        have hrel : releaseHeld s t = s := by
          unfold releaseHeld
          rw [hwt]
        rw [hrel]
        exact ⟨w', hw', hbound, hbusy⟩
      | some wid =>
        have hrel : (releaseHeld s t).workers = s.workers.map (fun w => if w.id == wid then { w with busy := false } else w) := by
          unfold releaseHeld
          rw [hwt]
          rfl
        rw [hrel]
        have hune : u ≠ t := by
          intro hcon
          rw [hcon, hidt'] at hui
          exact hui rfl
        have hwne : ¬(w'.id == wid) = true := by
          intro hcon
          rw [beq_iff_eq] at hcon
          have htrun : t.status = Status.running := hrun_of_worker wid hwt
          have hotw := h.otw.forall hsymotw hu hmemt hune
          refine hotw ⟨hrun, htrun, ?_, ?_⟩
          · rw [hbound, hwt, hcon]
          · rw [hbound]
            intro hx
            cases hx
        refine ⟨w', ?_, hbound, hbusy⟩
        have hmap : (fun w : WorkerNode => if w.id == wid then { w with busy := false } else w) w' = w' := by
          simp [hwne]
        rw [← hmap]
        exact List.mem_map_of_mem _ hw'
  · simp only [updateTask_tasks, releaseHeld_tasks]
    rw [List.pairwise_map]
    refine (h.otw.imp ?_)
    intro a b hRab hc
    obtain ⟨hga, hgb, hgw, hgn⟩ := hc
    by_cases hai : (a.id == ti) = true
    · rw [if_pos hai] at hga
      exact hnr hga
    · by_cases hbi : (b.id == ti) = true
      · rw [if_pos hbi] at hgb
        exact hnr hgb
      · rw [if_neg hai] at hga hgw hgn
        rw [if_neg hbi] at hgb hgw
        exact hRab ⟨hga, hgb, hgw, hgn⟩
  · intro w' hw' hbusy
    simp only [updateTask_workers] at hw'
    simp only [updateTask_tasks, releaseHeld_tasks]
    cases hwt : t.worker with
    | none =>
      have hrel : releaseHeld s t = s := by
        unfold releaseHeld
        rw [hwt]
      rw [hrel] at hw'
      obtain ⟨t2, ht2, hrun2, hbound2⟩ := h.wb w' hw' hbusy
      have ht2ne : ¬(t2.id == ti) = true := by
        intro hcon
        rw [beq_iff_eq] at hcon
        have ht2t : t2 = t := eq_of_mem_of_id_eq h.idsT ht2 hmemt (by rw [hcon, hidt])
        rw [ht2t, hwt] at hbound2
        cases hbound2
      refine ⟨t2, ?_, hrun2, hbound2⟩
      have hmap : (fun u : TaskNode => if u.id == ti then { u with status := st2, worker := none, attempts := att u } else u) t2 = t2 := by
        simp [ht2ne]
      rw [← hmap]
      exact List.mem_map_of_mem _ ht2
    | some wid =>
      have hrel : (releaseHeld s t).workers = s.workers.map (fun w => if w.id == wid then { w with busy := false } else w) := by
        unfold releaseHeld
        rw [hwt]
        rfl
      rw [hrel] at hw'
      obtain ⟨w, hw, rfl⟩ := List.mem_map.mp hw'
      by_cases hwidw : (w.id == wid) = true
      · simp [hwidw] at hbusy
      · rw [if_neg hwidw] at hbusy ⊢
        obtain ⟨t2, ht2, hrun2, hbound2⟩ := h.wb w hw hbusy
        have ht2ne : ¬(t2.id == ti) = true := by
          intro hcon
          rw [beq_iff_eq] at hcon
          have ht2t : t2 = t := eq_of_mem_of_id_eq h.idsT ht2 hmemt (by rw [hcon, hidt])
          rw [ht2t, hwt] at hbound2
          injection hbound2 with hcc
          exact hwidw (by simp [← hcc])
        refine ⟨t2, ?_, hrun2, hbound2⟩
        have hmap : (fun u : TaskNode => if u.id == ti then { u with status := st2, worker := none, attempts := att u } else u) t2 = t2 := by
          simp [ht2ne]
        rw [← hmap]
        exact List.mem_map_of_mem _ ht2
  · intro e he
    rcases List.mem_append.mp he with hl | hr
    · exact Nat.lt_trans (h.times e hl) (Nat.lt_succ_self _)
    · have : e = transitionEvent s.clock ti t.parent t.worker k := by simpa using hr
      rw [this]
      exact Nat.lt_succ_self _
  · intro t' ht' hst
    simp only [updateTask_tasks, releaseHeld_tasks] at ht'
    obtain ⟨u, hu, rfl⟩ := List.mem_map.mp ht'
    by_cases hui : (u.id == ti) = true
    · rw [if_pos hui] at hst ⊢
      have hks : k = EventKind.succeeded := hsucc hst
      refine ⟨transitionEvent s.clock ti t.parent t.worker k, List.mem_append.mpr (Or.inr (by simp)), ?_, hks⟩
      rw [beq_iff_eq] at hui
      simp [transitionEvent, hui]
    · rw [if_neg hui] at hst ⊢
      obtain ⟨e, he, hte, hke⟩ := h.se u hu hst
      exact ⟨e, List.mem_append.mpr (Or.inl he), hte, hke⟩
  · intro e he hk
    simp only [updateTask_tasks, releaseHeld_tasks]
    rcases List.mem_append.mp he with hl | hr
    · obtain ⟨u, hu, hid⟩ := h.sx e hl hk
      refine ⟨(fun u : TaskNode => if u.id == ti then { u with status := st2, worker := none, attempts := att u } else u) u, List.mem_map_of_mem _ hu, ?_⟩
      rw [hgid u]
      exact hid
    · have : e = transitionEvent s.clock ti t.parent t.worker k := by simpa using hr
      rw [this] at hk
      exact absurd hk hns
  · intro e he hk t'' ht'' hid2 d hd2
    simp only [updateTask_tasks, releaseHeld_tasks] at ht''
    obtain ⟨u, hu, rfl⟩ := List.mem_map.mp ht''
    rw [hgdeps u] at hd2
    rw [hgid u] at hid2
    rcases List.mem_append.mp he with hl | hr
    · obtain ⟨e2, he2, h1, h2, h3⟩ := h.sd e hl hk u hu hid2 d hd2
      exact ⟨e2, List.mem_append.mpr (Or.inl he2), h1, h2, h3⟩
    · have : e = transitionEvent s.clock ti t.parent t.worker k := by simpa using hr
      rw [this] at hk
      exact absurd hk hns
  · simp only [updateTask_tasks, releaseHeld_tasks]
    rw [reconstruct_append, h.rep, hreplay]
    unfold setSt
    rw [List.map_map, List.map_map]
    refine List.map_congr_left ?_
    intro u _
    simp only [Function.comp]
    by_cases hc : (u.id == ti) = true
    · have hc' : ((projT u).id == ti) = true := hc
      rw [if_pos hc, if_pos hc']
      rfl
    · have hc' : ¬((projT u).id == ti) = true := hc
      rw [if_neg hc, if_neg hc']

end Engine

namespace Engine

/-- Worker success preserves the invariant. -/
theorem inv_finishOk (s : EngineState) (ti : Nat) (h : Inv s) :
    Inv (exec s (Action.finishOkT ti)) := by
  have hred : exec s (Action.finishOkT ti) = finishOk s ti := rfl
  rw [hred]
  unfold finishOk
  split
  next => exact h
  next t heq =>
    by_cases hrb : (t.status == Status.running) = true
    · rw [if_pos hrb]
      simp only [updateTask_log, releaseHeld_log]
      exact inv_finish_core s ti t Status.succeeded EventKind.succeeded (fun u => u.attempts) heq (by decide) (fun _ => rfl) (by decide) (fun acc => rfl) h
    · rw [if_neg hrb]
      exact h

/-- Worker failure (retry or exhaustion) preserves the invariant. -/
theorem inv_finishFail (s : EngineState) (ti : Nat) (h : Inv s) :
    Inv (exec s (Action.finishFailT ti)) := by
  have hred : exec s (Action.finishFailT ti) = finishFail s ti := rfl
  rw [hred]
  unfold finishFail
  split
  next => exact h
  next t heq =>
    by_cases hrb : (t.status == Status.running) = true
    · rw [if_pos hrb]
      by_cases hlt : t.attempts < s.maxAttempts
      · rw [if_pos hlt]
        simp only [updateTask_log, releaseHeld_log]
        exact inv_finish_core s ti t Status.opened EventKind.retried (fun u => u.attempts + 1) heq (by decide) (by decide) (by decide) (fun acc => rfl) h
      · rw [if_neg hlt]
        simp only [updateTask_log, releaseHeld_log]
        exact inv_finish_core s ti t Status.failed EventKind.failed (fun u => u.attempts) heq (by decide) (by decide) (by decide) (fun acc => rfl) h
    · rw [if_neg hrb]
      exact h

/-- Forcing one task to CANCELLED preserves the invariant. -/
theorem inv_cancelOne (s : EngineState) (i : Nat) (h : Inv s) :
    Inv (cancelOne s i) := by
  unfold cancelOne
  split
  next => exact h
  next t heq =>
    simp only [updateTask_log, releaseHeld_log]
    exact inv_finish_core s i t Status.cancelled EventKind.cancelled (fun u => u.attempts) heq (by decide) (by decide) (by decide) (fun acc => rfl) h

/-- The drain fold preserves the invariant. -/
theorem inv_foldl_cancelOne (ids : List Nat) :
    ∀ s : EngineState, Inv s → Inv (ids.foldl cancelOne s) := by
  induction ids with
  | nil => exact fun s h => h
  | cons j ids ih => exact fun s h => ih (cancelOne s j) (inv_cancelOne s j h)

/-- The deadline drain preserves the invariant. -/
theorem inv_drain (s : EngineState) (h : Inv s) : Inv (exec s Action.drainA) := by
  have hred : exec s Action.drainA = drain s := rfl
  rw [hred]
  unfold drain
  split
  next => exact h
  next d hsd =>
    by_cases hd : d ≤ s.clock
    · rw [if_pos hd]
      exact inv_foldl_cancelOne _ s h
    · rw [if_neg hd]
      exact h

/-- Every engine step preserves the invariant. -/
theorem inv_exec (s : EngineState) (a : Action) (h : Inv s) : Inv (exec s a) := by
  cases a with
  | createT i parent content context deps => exact inv_createT s i parent content context deps h
  | registerW i => exact inv_registerW s i h
  | dispatchT ti wi => exact inv_dispatch s ti wi h
  | finishOkT ti => exact inv_finishOk s ti h
  | finishFailT ti => exact inv_finishFail s ti h
  | requestShutdownA d => exact inv_requestShutdown s d h
  | drainA => exact inv_drain s h

/-- The invariant holds along every run. -/
theorem inv_run (as : List Action) :
    ∀ s : EngineState, Inv s → Inv (runActions s as) := by
  induction as with
  | nil => exact fun s h => h
  | cons a as ih => exact fun s h => ih (exec s a) (inv_exec s a h)

/-- Every state reachable from an initial state satisfies the invariant. -/
theorem inv_reachable (m : Nat) (as : List Action) : Inv (runActions (init m) as) :=
  inv_run as (init m) (inv_init m)

end Engine

namespace Engine

/-- A second `acquire` of the same worker, with no intervening release,
always fails with WorkerUnavailable. -/
theorem acquire_acquire (s : EngineState) (wid : Nat) (s1 : EngineState)
    (hacq : acquire s wid = Except.ok s1) :
    acquire s1 wid = Except.error RegistryError.workerUnavailable := by
  unfold acquire at hacq
  split at hacq
  next => cases hacq
  next w0 hfw =>
    by_cases hb : w0.busy = true
    · rw [if_pos hb] at hacq
      cases hacq
    · rw [if_neg hb] at hacq
      cases hacq
      have hw0id' : (w0.id == wid) = true := by
        simp [findWorker_some_id hfw]
      have hfind : findWorker (setWorkerBusy s wid true) wid = some { w0 with busy := true } := by
        unfold findWorker
        simp only [setWorkerBusy_workers]
        rw [List.find?_map]
        have hcong : ((fun w : WorkerNode => w.id == wid) ∘ (fun w : WorkerNode => if w.id == wid then { w with busy := true } else w)) = (fun w : WorkerNode => w.id == wid) := by
          funext w
          by_cases hc : (w.id == wid) = true
          · simp [Function.comp, hc]
          · simp [Function.comp, hc]
        rw [hcong]
        have hfw' : s.workers.find? (fun w => w.id == wid) = some w0 := hfw
        rw [hfw']
        show some (if (w0.id == wid) = true then { w0 with busy := true } else w0) = some { w0 with busy := true }
        rw [if_pos hw0id']
      unfold acquire
      rw [hfind]
      rfl

end Engine

/-- C1: along every execution of the scheduling loop, a task never starts
before its dependencies have succeeded: every STARTED event of a task is
strictly preceded by a SUCCEEDED event of each of its declared
dependencies. -/
theorem c1_no_start_before_dependencies (m : Nat) (as : List Action) :
    ∀ e ∈ (runActions (init m) as).log, e.kind = EventKind.started →
    ∀ t ∈ (runActions (init m) as).tasks, t.id = e.taskId →
    ∀ d ∈ t.deps, ∃ e2 ∈ (runActions (init m) as).log,
      e2.taskId = d ∧ e2.kind = EventKind.succeeded ∧ e2.time < e.time :=
  fun e he hk t ht hid d hd => (inv_reachable m as).sd e he hk t ht hid d hd

/-- C1 witness: in a run where task 3 (depending on task 2) is dispatched
after task 2 succeeds, the STARTED event of task 3 at time 5 is preceded
by a SUCCEEDED event of task 2. -/
theorem c1_no_start_before_dependencies_witness :
    ∃ e2 ∈ (runActions (init 3) [Action.registerW 0, Action.createT 1 none "root" [] [], Action.createT 2 (some 1) "a" [] [], Action.createT 3 (some 1) "b" [] [2], Action.dispatchT 2 0, Action.finishOkT 2, Action.dispatchT 3 0]).log,
      e2.taskId = 2 ∧ e2.kind = EventKind.succeeded ∧ e2.time < (transitionEvent 5 3 (some 1) (some 0) EventKind.started).time :=
  c1_no_start_before_dependencies 3 [Action.registerW 0, Action.createT 1 none "root" [] [], Action.createT 2 (some 1) "a" [] [], Action.createT 3 (some 1) "b" [] [2], Action.dispatchT 2 0, Action.finishOkT 2, Action.dispatchT 3 0]
    (transitionEvent 5 3 (some 1) (some 0) EventKind.started) (by decide) rfl
    { newTask 3 (some 1) 1 "b" [] [2] with status := Status.running, worker := some 0 } (by decide) rfl
    2 (by decide)

/-- C2: in every reachable state, a worker is bound to at most one running
task; the registry never reports a worker idle while it is bound to a
running task; and two acquisitions of the same worker identifier without
an intervening release never both succeed. -/
theorem c2_worker_mutual_exclusion (m : Nat) (as : List Action) :
    (∀ t1 ∈ (runActions (init m) as).tasks, ∀ t2 ∈ (runActions (init m) as).tasks,
      t1.status = Status.running → t2.status = Status.running →
      t1.worker = t2.worker → t1.worker ≠ none → t1 = t2) ∧
    (∀ t ∈ (runActions (init m) as).tasks, ∀ w ∈ (runActions (init m) as).workers,
      t.status = Status.running → t.worker = some w.id → w.busy = true) ∧
    (∀ (wid : Nat) (s1 : EngineState), acquire (runActions (init m) as) wid = Except.ok s1 →
      acquire s1 wid = Except.error RegistryError.workerUnavailable) := by
  have h := inv_reachable m as
  have hsymotw : Symmetric (fun a b : TaskNode => ¬(a.status = Status.running ∧ b.status = Status.running ∧ a.worker = b.worker ∧ a.worker ≠ none)) := by
    intro x y hxy hc
    obtain ⟨hy, hx, hwyx, hny⟩ := hc
    refine hxy ⟨hx, hy, hwyx.symm, ?_⟩
    rw [← hwyx]
    exact hny
  refine ⟨?_, ?_, ?_⟩
  · intro t1 h1 t2 h2 hr1 hr2 hw hn
    by_contra hne
    exact h.otw.forall hsymotw h1 h2 hne ⟨hr1, hr2, hw, hn⟩
  · intro t ht w hw hr hbound
    obtain ⟨w2, hw2, hbound2, hbusy2⟩ := h.rwx t ht hr
    have hwid : w.id = w2.id := by
      rw [hbound] at hbound2
      injection hbound2
    have : w = w2 := eq_of_mem_of_wid_eq h.idsW hw hw2 hwid
    rw [this]
    exact hbusy2
  · intro wid s1 hacq
    exact acquire_acquire _ wid s1 hacq

/-- C3: serializing the Telemetry log via the log dump and replaying the
dumped records rebuilds exactly the live Task Store's parent/child and
dependency structure and per-task statuses, in every reachable state. -/
theorem c3_log_roundtrip (m : Nat) (as : List Action) :
    reconstruct (dumpLogs (runActions (init m) as)) =
      (runActions (init m) as).tasks.map projT :=
  (inv_reachable m as).rep

/-- C8: when the shutdown drain runs at an expired deadline, every remaining
RUNNING or OPEN task is forced to CANCELLED with a CANCELLED telemetry
event emitted for it, no RUNNING or OPEN task remains, and no worker is
left marked busy. -/
theorem c8_drain_forces_cancellation (m : Nat) (as : List Action) (d : Nat)
    (hsd : (runActions (init m) as).shutdownDeadline = some d)
    (hd : d ≤ (runActions (init m) as).clock) :
    (∀ t ∈ (runActions (init m) as).tasks, forced t = true →
      cancelT t ∈ (drain (runActions (init m) as)).tasks ∧
      ∃ e ∈ (drain (runActions (init m) as)).log, e.taskId = t.id ∧ e.kind = EventKind.cancelled) ∧
    (∀ t2 ∈ (drain (runActions (init m) as)).tasks, forced t2 = false) ∧
    (∀ w ∈ (drain (runActions (init m) as)).workers, w.busy = false) := by
  have hdr := drain_of_deadline (runActions (init m) as) d hsd hd
  refine ⟨?_, drain_tasks_not_forced _ d hsd hd, ?_⟩
  · intro t ht hf
    have hin : t.id ∈ ((runActions (init m) as).tasks.filter forced).map (fun t => t.id) :=
      List.mem_map_of_mem _ (List.mem_filter.mpr ⟨ht, hf⟩)
    constructor
    · rw [hdr, foldl_cancelOne_tasks]
      have hc : (((runActions (init m) as).tasks.filter forced).map (fun t => t.id)).contains t.id = true :=
        List.elem_iff.mpr hin
      have hmap : (fun u : TaskNode => if (((runActions (init m) as).tasks.filter forced).map (fun t => t.id)).contains u.id then cancelT u else u) t = cancelT t := if_pos hc
      rw [← hmap]
      exact List.mem_map_of_mem _ ht
    · rw [hdr]
      exact foldl_cancelOne_cancelled_event _ _ t.id hin ⟨t, ht, rfl⟩
  · have hinv : Inv (drain (runActions (init m) as)) := by
      have hred : exec (runActions (init m) as) Action.drainA = drain (runActions (init m) as) := rfl
      rw [← hred]
      exact inv_exec _ _ (inv_reachable m as)
    intro w hw
    cases hbusy : w.busy with
    | false => rfl
    | true =>
      obtain ⟨t2, ht2, hrun2, _⟩ := hinv.wb w hw hbusy
      have := drain_tasks_not_forced (runActions (init m) as) d hsd hd t2 ht2
      rw [forced, hrun2] at this
      cases this

/-- C8 witness: a run with one RUNNING task and a requested deadline 0
already expired: the drain cancels the task, logs its CANCELLED event,
leaves nothing RUNNING or OPEN and no busy worker. -/
theorem c8_drain_forces_cancellation_witness :
    (∀ t ∈ (runActions (init 3) [Action.registerW 0, Action.createT 1 none "root" [] [], Action.dispatchT 1 0, Action.requestShutdownA 0]).tasks, forced t = true →
      cancelT t ∈ (drain (runActions (init 3) [Action.registerW 0, Action.createT 1 none "root" [] [], Action.dispatchT 1 0, Action.requestShutdownA 0])).tasks ∧
      ∃ e ∈ (drain (runActions (init 3) [Action.registerW 0, Action.createT 1 none "root" [] [], Action.dispatchT 1 0, Action.requestShutdownA 0])).log, e.taskId = t.id ∧ e.kind = EventKind.cancelled) ∧
    (∀ t2 ∈ (drain (runActions (init 3) [Action.registerW 0, Action.createT 1 none "root" [] [], Action.dispatchT 1 0, Action.requestShutdownA 0])).tasks, forced t2 = false) ∧
    (∀ w ∈ (drain (runActions (init 3) [Action.registerW 0, Action.createT 1 none "root" [] [], Action.dispatchT 1 0, Action.requestShutdownA 0])).workers, w.busy = false) :=
  c8_drain_forces_cancellation 3 [Action.registerW 0, Action.createT 1 none "root" [] [], Action.dispatchT 1 0, Action.requestShutdownA 0] 0 (by decide) (by decide)
